import Mathlib

/-!
Verification development for the redmonster `datamgr` I/O layer
(`src/python/redmonster/datamgr/io.py` and `io2.py`).

The ndArch codec (`read_ndArch` / `write_ndArch`) is shallowly embedded:

* a FITS header is an ordered association list of `(keyword, value)` pairs,
  with astropy's `header[k]` (first match) and `header.set(k, v)`
  (update-in-place or append) semantics;
* header values are exact rationals (for Python/numpy numerics) or strings;
* the array payload is carried opaquely as a shape plus a flat list of
  samples, since the codec never inspects the samples themselves
  (`fits.getdata(...).copy()` on read, `fits.PrimaryHDU(data)` on write);
* Python exceptions become an `Except` error type.  A `KeyError` on a
  required wavelength keyword and a missing data block are labelled
  `MalformedArchiveError`, and the `IndexError` raised by
  `fn_ROOT.split('-')[-2]` on a malformed filename is labelled
  `InvalidNameError`, following the error taxonomy of the design document;
* Python's `str.rfind`, slicing with a possibly negative bound, `str.split`
  with an explicit separator, and `str(int)` are modelled character-exactly
  (`pyRfind`, `pySliceTo`, `splitSep`, `natStr`).
-/

set_option maxHeartbeats 1000000

/-- A FITS header value: a numeric card (modelled exactly as a rational)
or a string card. -/
inductive FitsVal where
  | num (q : ℚ)
  | str (s : String)
deriving DecidableEq, Repr

/-- A FITS header: an ordered list of (keyword, value) cards. -/
abbrev FitsHeader := List (String × FitsVal)

/-- `header[key]` lookup: the first card with the given keyword. -/
def hGet : FitsHeader → String → Option FitsVal
  | [], _ => none
  | (k, v) :: t, key => if k = key then some v else hGet t key

/-- `key in header` membership test. -/
def hContains (h : FitsHeader) (key : String) : Bool :=
  (hGet h key).isSome

/-- `header.set(key, value)`: update the existing card in place, else
append a new card at the end. -/
def hSet (h : FitsHeader) (key : String) (v : FitsVal) : FitsHeader :=
  if hContains h key then
    h.map (fun p => if p.1 = key then (key, v) else p)
  else h ++ [(key, v)]

/-- The N-dimensional array payload: a shape `(N_0, …, N_{P-1}, N_wave)`
and a flat list of samples.  The codec stores and restores it verbatim. -/
structure NdArray where
  shape : List Nat
  payload : List ℚ
deriving DecidableEq, Repr

/-- An ndArch container on disk: the filename it was written to, the
primary data block and the primary header. -/
structure FitsFile where
  fname : String
  data : NdArray
  header : FitsHeader
deriving DecidableEq, Repr

/-- Failure modes of the codec, following the spec's error taxonomy:
`InvalidNameError` for a filename with too few `-`-delimited tokens
(Python: `IndexError` from `split('-')[-2]`), `MalformedArchiveError` for
a missing required wavelength keyword or data block (Python: `KeyError` /
`IndexError` from astropy), `IndexError` for list overruns inside
`write_ndArch`, and `TypeError` for arithmetic on a non-numeric card. -/
inductive RmErr where
  | InvalidNameError
  | MalformedArchiveError
  | IndexError
  | TypeError
deriving DecidableEq, Repr

/-- Python `lst[i]` for a nonnegative index: raises `IndexError` when out
of range. -/
def pyGet {α : Type} (l : List α) (i : Nat) : Except RmErr α :=
  match l.get? i with
  | some a => .ok a
  | none => .error .IndexError

/-- Decimal printing with explicit fuel (structural recursion, so that
concrete numerals evaluate inside the kernel); the fuel never runs out
when it starts at the number itself. -/
def digitsRepGo : Nat → Nat → List Char
  | 0, n => [Nat.digitChar n]
  | fuel + 1, n =>
      if n < 10 then [Nat.digitChar n]
      else digitsRepGo fuel (n / 10) ++ [Nat.digitChar (n % 10)]

/-- Decimal digits of `n`, most significant first: the character content
of Python's `str(n)` / Lean's `toString n`. -/
def digitsRep (n : Nat) : List Char :=
  digitsRepGo n n

theorem digitsRepGo_fuel :
    ∀ fuel fuel' n : Nat, n ≤ fuel → n ≤ fuel' → digitsRepGo fuel n = digitsRepGo fuel' n := by
  intro fuel
  induction fuel with
  | zero =>
      intro fuel' n hn _
      interval_cases n
      cases fuel' with
      | zero => rfl
      | succ f => simp [digitsRepGo]
  | succ f ih =>
      intro fuel' n hn hn'
      cases fuel' with
      | zero =>
          interval_cases n
          simp [digitsRepGo]
      | succ f' =>
          simp only [digitsRepGo]
          by_cases h10 : n < 10
          · simp [h10]
          · simp only [h10, if_false]
            have hd : n / 10 ≤ f := by
              have := Nat.div_lt_self (by omega : 0 < n) (by omega : 1 < 10)
              omega
            have hd' : n / 10 ≤ f' := by
              have := Nat.div_lt_self (by omega : 0 < n) (by omega : 1 < 10)
              omega
            rw [ih f' (n / 10) hd hd']

/-- Python `str(n)` for a natural number. -/
def natStr (n : Nat) : String :=
  ⟨digitsRep n⟩

/-- The per-pixel keyword families of the ndArch header:
`'PV'+ax+'_'+str(j)`, `'PS'+ax+'_'+str(j)`, `'N'+ax+'_'+str(j)`. -/
def famKey (fam ax : String) (j : Nat) : String :=
  fam ++ ax ++ "_" ++ natStr j

/-- The full keyword family `fam{ax}_{1} … fam{ax}_{L}` probed or written
for one parameter axis of length `L`. -/
def famKeys (fam ax : String) (L : Nat) : List String :=
  (List.range L).map (fun j => famKey fam ax (j + 1))

/-- Python `s.strip()`: drop leading and trailing whitespace
(kernel-computable, unlike the builtin byte-position-based trim). -/
def pyStrip (s : String) : String :=
  ⟨((s.data.dropWhile Char.isWhitespace).reverse.dropWhile Char.isWhitespace).reverse⟩

/-- Does `pat` occur in `s` starting at position `i`? -/
def subAt (s pat : List Char) (i : Nat) : Bool :=
  decide ((s.drop i).take pat.length = pat)

/-- Python `s.rfind(pat)`: the greatest index at which `pat` occurs in
`s`, or `-1` when it does not occur. -/
def pyRfind (s pat : List Char) : Int :=
  match (List.range (s.length + 1)).reverse.find? (fun i => subAt s pat i) with
  | some i => (i : Int)
  | none => -1

/-- Python `s[:i]`, including the negative-index convention
(`s[:-1]` drops the final character). -/
def pySliceTo (s : List Char) (i : Int) : List Char :=
  if i < 0 then s.take (s.length - (-i).toNat) else s.take i.toNat

/-- Python `s.split(sep)` for a single-character separator: always returns
at least one (possibly empty) fragment. -/
def splitSep (sep : Char) (l : List Char) : List (List Char) :=
  l.foldr
    (fun c acc =>
      if c = sep then [] :: acc
      else
        match acc with
        | a :: rest => (c :: a) :: rest
        | [] => [[c]])
    [[]]

/-- `fname[:fname.rfind('.fits')]` — the filename root from which class
and version are parsed.  Note that only the literal substring `'.fits'`
is looked for; when absent, `rfind` yields `-1` and the slice drops just
the final character. -/
def pyRoot (l : List Char) : List Char :=
  pySliceTo l (pyRfind l ".fits".data)

/-- The decoded per-axis information produced by one iteration of
`read_ndArch`'s parameter loop: `CNAME{ax}`/`CUNIT{ax}` (defaulting to
`''`), the detected axis type, and the reconstructed baseline. -/
structure AxisRes where
  name : FitsVal
  unit : FitsVal
  kind : String
  baseline : List FitsVal
deriving DecidableEq, Repr

/-- The `(data, baselines, infodict)` triple returned by `read_ndArch`. -/
structure ReadResult where
  data : NdArray
  baselines : List (List FitsVal)
  filename : String
  klass : String
  version : String
  coeff0 : FitsVal
  coeff1 : FitsVal
  nwave : FitsVal
  fluxunit : FitsVal
  par_names : List FitsVal
  par_units : List FitsVal
  par_axistype : List String
deriving DecidableEq, Repr

/-- One iteration of `read_ndArch`'s loop over parameter axes
(io.py lines 78–110): populate name/unit from `CNAME{ax}`/`CUNIT{ax}`,
compute the four detection conditions, and build the baseline by the
first matching rule in the order regular > irregular > labeled > named,
defaulting to the one-based index baseline.  A complete key family is a
conjunction over `j = 1 … L` (numpy `pv_test.prod() > 0`); for `L = 0`
the empty conjunction is true, exactly as the empty numpy product is 1. -/
def axisDecode (h : FitsHeader) (ax : String) (L : Nat) : Except RmErr AxisRes :=
  let name := (hGet h ("CNAME" ++ ax)).getD (.str "")
  let unit := (hGet h ("CUNIT" ++ ax)).getD (.str "")
  let is_regular := hContains h ("CRPIX" ++ ax) && hContains h ("CRVAL" ++ ax) &&
    hContains h ("CDELT" ++ ax)
  let is_irregular := (famKeys "PV" ax L).all (hContains h)
  let is_labeled := (famKeys "PS" ax L).all (hContains h)
  let is_named := (famKeys "N" ax L).all (hContains h)
  if is_regular then
    match hGet h ("CRPIX" ++ ax), hGet h ("CRVAL" ++ ax), hGet h ("CDELT" ++ ax) with
    | some (.num p), some (.num v), some (.num d) =>
        .ok ⟨name, unit, "regular",
          (List.range L).map (fun k => .num (((k : ℚ) + 1 - p) * d + v))⟩
    | _, _, _ => .error .TypeError
  else if is_irregular then
    .ok ⟨name, unit, "irregular", (famKeys "PV" ax L).map (fun key => (hGet h key).getD (.str ""))⟩
  else if is_labeled then
    .ok ⟨name, unit, "labeled", (famKeys "PS" ax L).map (fun key => (hGet h key).getD (.str ""))⟩
  else if is_named then
    .ok ⟨name, unit, "named", (famKeys "N" ax L).map (fun key => (hGet h key).getD (.str ""))⟩
  else
    .ok ⟨name, unit, "index", (List.range L).map (fun k => .num ((k : ℚ) + 1))⟩

/-- `read_ndArch(fname)` (io.py lines 16–111).  The class and version are
parsed from the filename before the file is opened; the data block is
returned verbatim (a fresh copy in Python); `CRVAL1`, `CDELT1` and
`NAXIS1` are required; `BUNIT`, `CNAME{ax}`, `CUNIT{ax}` are optional;
baselines and axis types come from `axisDecode`, one parameter axis at a
time with FITS axis number `ax = npars + 1 - ipar` (so `ax ≥ 2`; the
wavelength axis `ax = 1` is never probed by the loop). -/
def read_ndArch (c : FitsFile) : Except RmErr ReadResult := do
  let parts := splitSep '-' (pyRoot c.fname.data)
  let fn_CLASS ←
    if 2 ≤ parts.length then pure (String.mk (parts.getD (parts.length - 2) []))
    else throw RmErr.InvalidNameError
  let fn_VERSION := String.mk (parts.getD (parts.length - 1) [])
  if c.data.shape.isEmpty then throw RmErr.MalformedArchiveError
  let npars := c.data.shape.length - 1
  let coeff0 ← match hGet c.header "CRVAL1" with
    | some v => pure v
    | none => throw RmErr.MalformedArchiveError
  let coeff1 ← match hGet c.header "CDELT1" with
    | some v => pure v
    | none => throw RmErr.MalformedArchiveError
  let nwave ← match hGet c.header "NAXIS1" with
    | some v => pure v
    | none => throw RmErr.MalformedArchiveError
  let fluxunit := (hGet c.header "BUNIT").getD (.str "")
  let axres ← (List.range npars).mapM (fun ipar =>
    axisDecode c.header (natStr (npars + 1 - ipar)) (c.data.shape.getD ipar 0))
  let baseParts := splitSep '/' c.fname.data
  pure {
    data := c.data
    baselines := axres.map (·.baseline)
    filename := String.mk (baseParts.getD (baseParts.length - 1) [])
    klass := fn_CLASS
    version := fn_VERSION
    coeff0 := coeff0
    coeff1 := coeff1
    nwave := nwave
    fluxunit := fluxunit
    par_names := axres.map (·.name)
    par_units := axres.map (·.unit)
    par_axistype := axres.map (·.kind) }

/-- The `infodict` argument of `write_ndArch`: `filename`, `coeff0`,
`coeff1` and `par_axistype` are required keys; `fluxunit`, `par_names`
and `par_units` are optional (`Option` models dictionary-key presence,
which is what the source tests with `'fluxunit' in infodict` etc.). -/
structure WInfo where
  filename : String
  coeff0 : ℚ
  coeff1 : ℚ
  fluxunit : Option String
  par_names : Option (List String)
  par_units : Option (List String)
  par_axistype : List String
deriving DecidableEq, Repr

/-- `if ('par_names' in infodict): hdu.header.set('CNAME'+ax, infodict['par_names'][ipar], …)`
(io.py line 175). -/
def setNameW (info : WInfo) (ax : String) (ipar : Nat) (h : FitsHeader) :
    Except RmErr FitsHeader :=
  match info.par_names with
  | some ns => do
      let v ← pyGet ns ipar
      pure (hSet h ("CNAME" ++ ax) (.str v))
  | none => pure h

/-- `if ('par_units' in infodict): hdu.header.set('CUNIT'+ax, infodict['par_units'][ipar], …)`
(io.py line 177). -/
def setUnitW (info : WInfo) (ax : String) (ipar : Nat) (h : FitsHeader) :
    Except RmErr FitsHeader :=
  match info.par_units with
  | some us => do
      let v ← pyGet us ipar
      pure (hSet h ("CUNIT" ++ ax) (.str v))
  | none => pure h

/-- The `if/elif` chain on `infodict['par_axistype'][ipar].strip()`
(io.py lines 180–197) emitting the kind-specific keyword family for one
parameter axis of length `L`. -/
def axisBody (bs : List (List FitsVal)) (ax : String) (L : Nat) (ipar : Nat)
    (kind : String) (h2 : FitsHeader) : Except RmErr FitsHeader :=
  if pyStrip kind = "regular" then do
    let b ← pyGet bs ipar
    let b0 ← pyGet b 0
    let b1 ← pyGet b 1
    match b0, b1 with
    | .num q0, .num q1 =>
        pure (hSet (hSet (hSet h2 ("CRPIX" ++ ax) (.num 1)) ("CRVAL" ++ ax) (.num q0))
          ("CDELT" ++ ax) (.num (q1 - q0)))
    | _, _ => throw RmErr.TypeError
  else if pyStrip kind = "irregular" then do
    let b ← pyGet bs ipar
    (List.range L).foldlM (fun hh j => do
      let v ← pyGet b j
      pure (hSet hh (famKey "PV" ax (j + 1)) v)) h2
  else if pyStrip kind = "labeled" then do
    let b ← pyGet bs ipar
    (List.range L).foldlM (fun hh j => do
      let v ← pyGet b j
      pure (hSet hh (famKey "PS" ax (j + 1)) v)) h2
  else if pyStrip kind = "named" then do
    let b ← pyGet bs ipar
    (List.range L).foldlM (fun hh j => do
      let v ← pyGet b j
      pure (hSet hh (famKey "N" ax (j + 1)) v)) h2
  else
    pure h2

/-- One iteration of `write_ndArch`'s parameter loop (io.py lines
171–197): optionally set `CNAME{ax}`/`CUNIT{ax}`, then emit the
kind-specific keyword family.  List overruns are Python `IndexError`s
and subtracting non-numeric baseline entries is a `TypeError`; either
way the exception escapes before `writeto` is reached, so no file
appears. -/
def axisWrite (shape : List Nat) (npars : Nat) (bs : List (List FitsVal)) (info : WInfo)
    (h : FitsHeader) (ipar : Nat) : Except RmErr FitsHeader := do
  let ax := natStr (npars + 1 - ipar)
  let h1 ← setNameW info ax ipar h
  let h2 ← setUnitW info ax ipar h1
  let kind ← pyGet info.par_axistype ipar
  axisBody bs ax (shape.getD ipar 0) ipar kind h2

/-- The header of the fresh primary HDU after the wavelength-axis cards
are set and before the parameter loop runs: the structural cards
(`NAXIS`, and `NAXIS1` derived by astropy from the last array axis — the
remaining structural cards are never consulted by `read_ndArch` and are
omitted), then `BUNIT` iff the `fluxunit` key is present, then the fixed
wavelength cards `CNAME1='loglam'`, `CUNIT1='log10(Angstroms)'`,
`CRPIX1=1.0`, `CRVAL1=coeff0`, `CDELT1=coeff1`. -/
def writeBase (data : NdArray) (info : WInfo) : FitsHeader :=
  let h0 : FitsHeader :=
    match data.shape.getLast? with
    | some nwave => [("NAXIS", .num (data.shape.length : ℚ)), ("NAXIS1", .num (nwave : ℚ))]
    | none => [("NAXIS", .num 0)]
  let h1 := match info.fluxunit with
    | some u => hSet h0 "BUNIT" (.str u)
    | none => h0
  let h2 := hSet (hSet h1 "CNAME1" (.str "loglam")) "CUNIT1" (.str "log10(Angstroms)")
  hSet (hSet (hSet h2 "CRPIX1" (.num 1)) "CRVAL1" (.num info.coeff0))
    "CDELT1" (.num info.coeff1)

/-- `write_ndArch(data, baselines, infodict)` (io.py lines 120–198): the
pre-loop header `writeBase`, then the parameter axes in reversed order
(`range(npars)[::-1]`).  On success the container carries the destination
filename, the data verbatim, and the finished header. -/
def write_ndArch (data : NdArray) (bs : List (List FitsVal)) (info : WInfo) :
    Except RmErr FitsFile := do
  let npars := data.shape.length - 1
  let hfin ← (List.range npars).reverse.foldlM (axisWrite data.shape npars bs info)
    (writeBase data info)
  pure { fname := info.filename, data := data, header := hfin }

/-! ### The `Write_Redmonster` overwrite policy of io2.py

Only the clobber/naming decision logic is embedded: given the effective
clobber flag and whether the base-named output file already exists, which
filename is written and whether an existing file is overwritten.  Calls
to `writeto` without `clobber=True` never overwrite (astropy raises on an
existing file), so the non-clobber branches are fresh writes. -/

/-- The file operation a `Write_Redmonster` method performs: overwrite
the given name, or create it fresh. -/
inductive FileOp where
  | clobberWrite (name : String)
  | freshWrite (name : String)
deriving DecidableEq, Repr

/-- The `clobber` attribute set by `Write_Redmonster.__init__` in io2.py
(line 33): the keyword argument defaults to `True`. -/
def initClobber (clobberArg : Option Bool) : Bool :=
  clobberArg.getD true

/-- `Write_Redmonster.write_plate` (io2.py lines 144–168): with clobber,
overwrite the base name; otherwise write under the timestamp-appended
name when the base name exists, else under the base name. -/
def write_plate_op (clobber : Bool) (targetExists : Bool) (base stamped : String) : FileOp :=
  if clobber then .clobberWrite base
  else if targetExists then .freshWrite stamped
  else .freshWrite base

/-- `Write_Redmonster.write_fiber` (io2.py lines 116–140): identical
branching, except that line 117 (`self.clobber = True  # Temporary
fix!!`) discards the caller's clobber setting first. -/
def write_fiber_op (_clobberAttr : Bool) (targetExists : Bool) (base stamped : String) : FileOp :=
  let clobber := true
  if clobber then .clobberWrite base
  else if targetExists then .freshWrite stamped
  else .freshWrite base

/-! ### Header lookup/update lemmas -/

@[simp] theorem hGet_nil (key : String) : hGet [] key = none := rfl

@[simp] theorem hGet_cons (k₀ : String) (v₀ : FitsVal) (t : FitsHeader) (key : String) :
    hGet ((k₀, v₀) :: t) key = if k₀ = key then some v₀ else hGet t key := rfl

theorem hGet_append_single (h : FitsHeader) (k k' : String) (v : FitsVal) :
    hGet (h ++ [(k, v)]) k' =
      if (hGet h k').isSome then hGet h k'
      else if k = k' then some v else none := by
  induction h with
  | nil => simp
  | cons p t ih =>
      obtain ⟨k₀, v₀⟩ := p
      by_cases hk : k₀ = k'
      · simp [hk]
      · simp [hk, ih]

theorem hGet_map_update (h : FitsHeader) (k k' : String) (v : FitsVal) :
    hGet (h.map (fun p => if p.1 = k then (k, v) else p)) k' =
      if k = k' then (if (hGet h k).isSome then some v else none)
      else hGet h k' := by
  induction h with
  | nil => simp
  | cons p t ih =>
      obtain ⟨k₀, v₀⟩ := p
      simp only [List.map_cons]
      by_cases h0 : k₀ = k
      · subst h0
        rw [if_pos rfl]
        by_cases h1 : k₀ = k'
        · subst h1
          simp
        · simp only [hGet_cons, if_neg h1, ih]
      · rw [if_neg h0]
        by_cases h1 : k₀ = k'
        · subst h1
          simp only [hGet_cons, if_pos rfl]
          simp [Ne.symm h0]
        · simp only [hGet_cons, if_neg h1, ih]
          by_cases h2 : k = k' <;> simp [h2, h0, h1]

theorem hGet_hSet_self (h : FitsHeader) (k : String) (v : FitsVal) :
    hGet (hSet h k v) k = some v := by
  unfold hSet hContains
  by_cases hc : (hGet h k).isSome
  · simp [hc, hGet_map_update]
  · simp [hc, hGet_append_single]

theorem hGet_hSet_ne (h : FitsHeader) {k k' : String} (hne : k' ≠ k) (v : FitsVal) :
    hGet (hSet h k v) k' = hGet h k' := by
  unfold hSet hContains
  by_cases hc : (hGet h k).isSome
  · simp [hc, hGet_map_update, Ne.symm hne]
  · simp only [hc, if_false, Bool.false_eq_true, ite_false]
    rw [hGet_append_single]
    simp [Ne.symm hne]
    cases hGet h k' <;> simp

theorem hContains_hSet_ne (h : FitsHeader) {k k' : String} (hne : k' ≠ k) (v : FitsVal) :
    hContains (hSet h k v) k' = hContains h k' := by
  unfold hContains
  rw [hGet_hSet_ne h hne]

/-! ### Decimal numerals: `str(n)` produces a nonempty all-digit string,
injectively -/

theorem digitChar_isDigit : ∀ m, m < 10 → (Nat.digitChar m).isDigit = true := by decide

theorem digitChar_inj : ∀ a, a < 10 → ∀ b, b < 10 →
    Nat.digitChar a = Nat.digitChar b → a = b := by
  decide

theorem digitsRep_lt {n : Nat} (h : n < 10) : digitsRep n = [Nat.digitChar n] := by
  unfold digitsRep
  cases n with
  | zero => rfl
  | succ m =>
      rw [digitsRepGo, if_pos h]

theorem digitsRep_ge {n : Nat} (h : ¬n < 10) :
    digitsRep n = digitsRep (n / 10) ++ [Nat.digitChar (n % 10)] := by
  unfold digitsRep
  cases n with
  | zero => omega
  | succ m =>
      rw [digitsRepGo, if_neg h]
      have hd : (m + 1) / 10 ≤ m := by
        have := Nat.div_lt_self (by omega : 0 < m + 1) (by omega : 1 < 10)
        omega
      rw [digitsRepGo_fuel m ((m + 1) / 10) ((m + 1) / 10) hd (le_refl _)]

theorem digitsRep_ne_nil (n : Nat) : digitsRep n ≠ [] := by
  by_cases h : n < 10
  · rw [digitsRep_lt h]; simp
  · rw [digitsRep_ge h]; simp

theorem digitsRep_isDigit (n : Nat) : ∀ c ∈ digitsRep n, c.isDigit = true := by
  induction n using Nat.strong_induction_on with
  | _ n ih =>
    by_cases h : n < 10
    · rw [digitsRep_lt h]
      intro c hc
      simp only [List.mem_singleton] at hc
      subst hc
      exact digitChar_isDigit _ h
    · rw [digitsRep_ge h]
      intro c hc
      rw [List.mem_append] at hc
      rcases hc with hc | hc
      · exact ih (n / 10) (Nat.div_lt_self (by omega) (by omega)) c hc
      · simp only [List.mem_singleton] at hc
        subst hc
        exact digitChar_isDigit _ (Nat.mod_lt _ (by omega))

theorem digitsRep_inj : ∀ m n : Nat, digitsRep m = digitsRep n → m = n := by
  intro m
  induction m using Nat.strong_induction_on with
  | _ m ih =>
    intro n h
    by_cases hm : m < 10 <;> by_cases hn : n < 10
    · rw [digitsRep_lt hm, digitsRep_lt hn] at h
      exact digitChar_inj _ hm _ hn (by simpa using h)
    · exfalso
      rw [digitsRep_lt hm, digitsRep_ge hn] at h
      have hx := congrArg List.length h
      simp at hx
      exact absurd hx (digitsRep_ne_nil _)
    · exfalso
      rw [digitsRep_ge hm, digitsRep_lt hn] at h
      have hx := congrArg List.length h
      simp at hx
      exact absurd hx (digitsRep_ne_nil _)
    · rw [digitsRep_ge hm, digitsRep_ge hn] at h
      obtain ⟨h1, h2⟩ := List.append_inj' h (by simp)
      have e1 : m / 10 = n / 10 :=
        ih (m / 10) (Nat.div_lt_self (by omega) (by omega)) _ h1
      have e2 : m % 10 = n % 10 :=
        digitChar_inj _ (Nat.mod_lt _ (by omega)) _ (Nat.mod_lt _ (by omega))
          (by simpa using h2)
      omega

theorem natStr_data (n : Nat) : (natStr n).data = digitsRep n := rfl

theorem natStr_inj {m n : Nat} (h : natStr m = natStr n) : m = n :=
  digitsRep_inj _ _ (congrArg String.data h)

theorem natStr_isDigit (n : Nat) : ∀ c ∈ (natStr n).data, c.isDigit = true :=
  digitsRep_isDigit n

theorem natStr_ne_nil (n : Nat) : (natStr n).data ≠ [] :=
  digitsRep_ne_nil n

/-! ### Keyword strings: splitting at the `_` separator and telling the
keys of different axes apart -/

theorem string_data_append (s t : String) : (s ++ t).data = s.data ++ t.data := rfl

theorem famKey_data (fam ax : String) (j : Nat) :
    (famKey fam ax j).data = fam.data ++ (ax.data ++ '_' :: (natStr j).data) := by
  show (fam ++ ax ++ "_" ++ natStr j).data = _
  rw [string_data_append, string_data_append, string_data_append]
  simp [List.append_assoc]

theorem key_ne_at {s t : String} (k : Nat) (h : s.data.get? k ≠ t.data.get? k) : s ≠ t :=
  fun e => h (by rw [e])

theorem append_left_cancel_str {p s t : String} (h : p ++ s = p ++ t) : s = t := by
  have hd := congrArg String.data h
  rw [string_data_append, string_data_append] at hd
  exact String.ext (List.append_cancel_left hd)

theorem digit_sep_split :
    ∀ {a b x y : List Char}, (∀ c ∈ a, c.isDigit = true) → (∀ c ∈ b, c.isDigit = true) →
      a ++ '_' :: x = b ++ '_' :: y → a = b ∧ x = y := by
  intro a
  induction a with
  | nil =>
      intro b x y _ hb h
      cases b with
      | nil => simpa using h
      | cons c bt =>
          exfalso
          simp only [List.nil_append, List.cons_append, List.cons.injEq] at h
          have hc := hb c (by simp)
          rw [← h.1] at hc
          exact absurd hc (by decide)
  | cons c ct ih =>
      intro b x y ha hb h
      cases b with
      | nil =>
          exfalso
          simp only [List.nil_append, List.cons_append, List.cons.injEq] at h
          have hc := ha c (by simp)
          rw [h.1] at hc
          exact absurd hc (by decide)
      | cons d bt =>
          simp only [List.cons_append, List.cons.injEq] at h
          obtain ⟨hcd, htl⟩ := h
          obtain ⟨h1, h2⟩ :=
            ih (fun e he => ha e (by simp [he])) (fun e he => hb e (by simp [he])) htl
          exact ⟨by rw [hcd, h1], h2⟩

theorem famKey_inj {fam ax ax' : String} {i i' : Nat}
    (hax : ∀ c ∈ ax.data, c.isDigit = true) (hax' : ∀ c ∈ ax'.data, c.isDigit = true)
    (h : famKey fam ax i = famKey fam ax' i') : ax = ax' ∧ i = i' := by
  have hd := congrArg String.data h
  rw [famKey_data, famKey_data] at hd
  obtain ⟨h1, h2⟩ := digit_sep_split hax hax' (List.append_cancel_left hd)
  exact ⟨String.ext h1, natStr_inj (String.ext h2)⟩

theorem famKey_same_ne {fam ax : String} {i i' : Nat}
    (hax : ∀ c ∈ ax.data, c.isDigit = true) (hne : i ≠ i') :
    famKey fam ax i ≠ famKey fam ax i' :=
  fun e => hne (famKey_inj hax hax e).2

/-! ### Extracting the axis numeral out of any key an axis owns -/

/-- The first maximal run of digit characters in a keyword: for every key
written or probed for a parameter axis this is exactly the axis numeral. -/
def axChars (K : String) : List Char :=
  (K.data.dropWhile (fun c => !c.isDigit)).takeWhile (fun c => c.isDigit)

/-- All keywords `read_ndArch` may probe, and `write_ndArch` may emit,
for the parameter axis with FITS axis-number string `ax` and length `L`. -/
def axisAllKeys (ax : String) (L : Nat) : List String :=
  ["CNAME" ++ ax, "CUNIT" ++ ax, "CRPIX" ++ ax, "CRVAL" ++ ax, "CDELT" ++ ax] ++
    (famKeys "PV" ax L ++ (famKeys "PS" ax L ++ famKeys "N" ax L))

theorem dropWhile_all_append {p : Char → Bool} {l m : List Char}
    (h : ∀ c ∈ l, p c = true) : List.dropWhile p (l ++ m) = List.dropWhile p m := by
  induction l with
  | nil => simp
  | cons c ct ih =>
      have hc := h c (by simp)
      simp only [List.cons_append, List.dropWhile_cons, hc, if_true]
      exact ih (fun e he => h e (by simp [he]))

theorem dropWhile_head_false {p : Char → Bool} {c : Char} {l : List Char}
    (h : p c = false) : List.dropWhile p (c :: l) = c :: l := by
  simp [List.dropWhile_cons, h]

theorem takeWhile_all_append_stop {p : Char → Bool} {l m : List Char}
    (hl : ∀ c ∈ l, p c = true)
    (hm : m = [] ∨ ∃ c0 t, m = c0 :: t ∧ p c0 = false) :
    List.takeWhile p (l ++ m) = l := by
  induction l with
  | nil =>
      rcases hm with rfl | ⟨c0, t, rfl, hc⟩
      · simp
      · simp [List.takeWhile_cons, hc]
  | cons c ct ih =>
      have hc := hl c (by simp)
      simp only [List.cons_append, List.takeWhile_cons, hc, if_true]
      rw [ih (fun e he => hl e (by simp [he]))]

theorem axChars_spec (lit : String) (hlit : ∀ c ∈ lit.data, c.isDigit = false)
    {ax : String} (hax : ∀ c ∈ ax.data, c.isDigit = true) (hne : ax.data ≠ [])
    (tail : List Char) (htail : tail = [] ∨ ∃ t, tail = '_' :: t)
    {K : String} (hK : K.data = lit.data ++ (ax.data ++ tail)) :
    axChars K = ax.data := by
  unfold axChars
  rw [hK]
  rw [dropWhile_all_append (fun c hc => by simp [hlit c hc])]
  obtain ⟨c0, ct, hax0⟩ : ∃ c0 ct, ax.data = c0 :: ct := by
    cases h : ax.data with
    | nil => exact absurd h hne
    | cons a b => exact ⟨a, b, rfl⟩
  rw [hax0, List.cons_append,
    dropWhile_head_false (by simp [hax c0 (by rw [hax0]; simp)]),
    ← List.cons_append, ← hax0]
  apply takeWhile_all_append_stop hax
  rcases htail with rfl | ⟨t, rfl⟩
  · exact Or.inl rfl
  · exact Or.inr ⟨'_', t, rfl, by decide⟩

theorem axChars_of_mem {ax : String} (hax : ∀ c ∈ ax.data, c.isDigit = true)
    (hne : ax.data ≠ []) {L : Nat} {K : String} (hK : K ∈ axisAllKeys ax L) :
    axChars K = ax.data := by
  simp only [axisAllKeys, famKeys, List.mem_append, List.mem_cons, List.mem_map,
    List.mem_range, List.not_mem_nil, or_false] at hK
  rcases hK with (rfl | rfl | rfl | rfl | rfl) | ⟨j, hj, rfl⟩ | ⟨j, hj, rfl⟩ | ⟨j, hj, rfl⟩
  · exact axChars_spec "CNAME" (by decide) hax hne [] (Or.inl rfl)
      (by rw [string_data_append, List.append_nil])
  · exact axChars_spec "CUNIT" (by decide) hax hne [] (Or.inl rfl)
      (by rw [string_data_append, List.append_nil])
  · exact axChars_spec "CRPIX" (by decide) hax hne [] (Or.inl rfl)
      (by rw [string_data_append, List.append_nil])
  · exact axChars_spec "CRVAL" (by decide) hax hne [] (Or.inl rfl)
      (by rw [string_data_append, List.append_nil])
  · exact axChars_spec "CDELT" (by decide) hax hne [] (Or.inl rfl)
      (by rw [string_data_append, List.append_nil])
  · exact axChars_spec "PV" (by decide) hax hne _ (Or.inr ⟨_, rfl⟩) (famKey_data _ _ _)
  · exact axChars_spec "PS" (by decide) hax hne _ (Or.inr ⟨_, rfl⟩) (famKey_data _ _ _)
  · exact axChars_spec "N" (by decide) hax hne _ (Or.inr ⟨_, rfl⟩) (famKey_data _ _ _)

theorem axisAllKeys_disjoint {ax ax' : String}
    (hax : ∀ c ∈ ax.data, c.isDigit = true) (hne : ax.data ≠ [])
    (hax' : ∀ c ∈ ax'.data, c.isDigit = true) (hne' : ax'.data ≠ [])
    (hdiff : ax ≠ ax') {L L' : Nat} {K : String}
    (h1 : K ∈ axisAllKeys ax L) : K ∉ axisAllKeys ax' L' := by
  intro h2
  exact hdiff (String.ext ((axChars_of_mem hax hne h1).symm.trans
    (axChars_of_mem hax' hne' h2)))

/-! ### Unfolding `read_ndArch` -/

theorem read_ok_of (c : FitsFile)
    (hparts : 2 ≤ (splitSep '-' (pyRoot c.fname.data)).length)
    (hsh : c.data.shape.isEmpty = false)
    {v0 v1 vn : FitsVal}
    (h0 : hGet c.header "CRVAL1" = some v0)
    (h1 : hGet c.header "CDELT1" = some v1)
    (h2 : hGet c.header "NAXIS1" = some vn)
    {axres : List AxisRes}
    (hax : (List.range (c.data.shape.length - 1)).mapM (fun ipar =>
      axisDecode c.header (natStr (c.data.shape.length - 1 + 1 - ipar))
        (c.data.shape.getD ipar 0)) = .ok axres) :
    read_ndArch c = .ok {
      data := c.data
      baselines := axres.map (·.baseline)
      filename := String.mk ((splitSep '/' c.fname.data).getD
        ((splitSep '/' c.fname.data).length - 1) [])
      klass := String.mk ((splitSep '-' (pyRoot c.fname.data)).getD
        ((splitSep '-' (pyRoot c.fname.data)).length - 2) [])
      version := String.mk ((splitSep '-' (pyRoot c.fname.data)).getD
        ((splitSep '-' (pyRoot c.fname.data)).length - 1) [])
      coeff0 := v0
      coeff1 := v1
      nwave := vn
      fluxunit := (hGet c.header "BUNIT").getD (.str "")
      par_names := axres.map (·.name)
      par_units := axres.map (·.unit)
      par_axistype := axres.map (·.kind) } := by
  unfold read_ndArch
  rw [if_pos hparts]
  simp only [hsh, Bool.false_eq_true, if_false, h0, h1, h2, hax]
  rfl

theorem read_badname (c : FitsFile)
    (hparts : ¬ 2 ≤ (splitSep '-' (pyRoot c.fname.data)).length) :
    read_ndArch c = .error .InvalidNameError := by
  unfold read_ndArch
  rw [if_neg hparts]
  rfl

theorem read_noCRVAL1 (c : FitsFile)
    (hparts : 2 ≤ (splitSep '-' (pyRoot c.fname.data)).length)
    (h0 : hGet c.header "CRVAL1" = none) :
    read_ndArch c = .error .MalformedArchiveError := by
  unfold read_ndArch
  rw [if_pos hparts]
  by_cases hsh : c.data.shape.isEmpty
  · simp only [hsh, if_true]
    rfl
  · simp only [hsh, Bool.false_eq_true, if_false, h0]
    rfl

theorem read_emptyshape (c : FitsFile)
    (hparts : 2 ≤ (splitSep '-' (pyRoot c.fname.data)).length)
    (hsh : c.data.shape.isEmpty = true) :
    read_ndArch c = .error .MalformedArchiveError := by
  unfold read_ndArch
  rw [if_pos hparts]
  simp only [hsh, if_true]
  rfl

theorem read_noCDELT1 (c : FitsFile)
    (hparts : 2 ≤ (splitSep '-' (pyRoot c.fname.data)).length)
    (hsh : c.data.shape.isEmpty = false)
    {v0 : FitsVal} (h0 : hGet c.header "CRVAL1" = some v0)
    (h1 : hGet c.header "CDELT1" = none) :
    read_ndArch c = .error .MalformedArchiveError := by
  unfold read_ndArch
  rw [if_pos hparts]
  simp only [hsh, Bool.false_eq_true, if_false, h0, h1]
  rfl

theorem read_noNAXIS1 (c : FitsFile)
    (hparts : 2 ≤ (splitSep '-' (pyRoot c.fname.data)).length)
    (hsh : c.data.shape.isEmpty = false)
    {v0 v1 : FitsVal} (h0 : hGet c.header "CRVAL1" = some v0)
    (h1 : hGet c.header "CDELT1" = some v1)
    (h2 : hGet c.header "NAXIS1" = none) :
    read_ndArch c = .error .MalformedArchiveError := by
  unfold read_ndArch
  rw [if_pos hparts]
  simp only [hsh, Bool.false_eq_true, if_false, h0, h1, h2]
  rfl

theorem read_axes_err (c : FitsFile)
    (hparts : 2 ≤ (splitSep '-' (pyRoot c.fname.data)).length)
    (hsh : c.data.shape.isEmpty = false)
    {v0 v1 vn : FitsVal}
    (h0 : hGet c.header "CRVAL1" = some v0)
    (h1 : hGet c.header "CDELT1" = some v1)
    (h2 : hGet c.header "NAXIS1" = some vn)
    {e : RmErr}
    (hax : (List.range (c.data.shape.length - 1)).mapM (fun ipar =>
      axisDecode c.header (natStr (c.data.shape.length - 1 + 1 - ipar))
        (c.data.shape.getD ipar 0)) = .error e) :
    read_ndArch c = .error e := by
  unfold read_ndArch
  rw [if_pos hparts]
  simp only [hsh, Bool.false_eq_true, if_false, h0, h1, h2, hax]
  rfl

theorem read_ok_inv {c : FitsFile} {r : ReadResult} (h : read_ndArch c = .ok r) :
    ∃ axres : List AxisRes,
      (List.range (c.data.shape.length - 1)).mapM (fun ipar =>
        axisDecode c.header (natStr (c.data.shape.length - 1 + 1 - ipar))
          (c.data.shape.getD ipar 0)) = .ok axres ∧
      r.data = c.data ∧
      r.baselines = axres.map (·.baseline) ∧
      r.par_names = axres.map (·.name) ∧
      r.par_units = axres.map (·.unit) ∧
      r.par_axistype = axres.map (·.kind) := by
  by_cases hparts : 2 ≤ (splitSep '-' (pyRoot c.fname.data)).length
  · rcases hsh : c.data.shape.isEmpty with _ | _
    · rcases h0 : hGet c.header "CRVAL1" with _ | v0
      · rw [read_noCRVAL1 c hparts h0] at h
        exact Except.noConfusion h
      · rcases h1 : hGet c.header "CDELT1" with _ | v1
        · rw [read_noCDELT1 c hparts hsh h0 h1] at h
          exact Except.noConfusion h
        · rcases h2 : hGet c.header "NAXIS1" with _ | vn
          · rw [read_noNAXIS1 c hparts hsh h0 h1 h2] at h
            exact Except.noConfusion h
          · rcases hm : (List.range (c.data.shape.length - 1)).mapM (fun ipar =>
                axisDecode c.header (natStr (c.data.shape.length - 1 + 1 - ipar))
                  (c.data.shape.getD ipar 0)) with e | axres
            · rw [read_axes_err c hparts hsh h0 h1 h2 hm] at h
              exact Except.noConfusion h
            · rw [read_ok_of c hparts hsh h0 h1 h2 hm] at h
              have h' := Except.ok.inj h
              exact ⟨axres, rfl, by rw [← h'], by rw [← h'], by rw [← h'], by rw [← h'],
                by rw [← h']⟩
    · rw [read_emptyshape c hparts hsh] at h
      exact Except.noConfusion h
  · rw [read_badname c hparts] at h
    exact Except.noConfusion h

/-! ### `mapM` over `Except`: pointwise access -/

theorem mapM_ok_nth {α β : Type} {f : α → Except RmErr β} :
    ∀ {l : List α} {res : List β}, l.mapM f = .ok res →
      ∀ i a, l.get? i = some a → ∃ b, f a = .ok b ∧ res.get? i = some b := by
  intro l
  induction l with
  | nil =>
      intro res h i a ha
      simp at ha
  | cons x xs ih =>
      intro res h i a ha
      rw [List.mapM_cons] at h
      rcases hx : f x with e | b
      · rw [hx] at h
        exact Except.noConfusion h
      · rw [hx] at h
        rcases hxs : xs.mapM f with e | bs
        · rw [hxs] at h
          exact Except.noConfusion h
        · rw [hxs] at h
          have h' := Except.ok.inj h
          subst h'
          cases i with
          | zero =>
              simp at ha
              subst ha
              exact ⟨b, hx, rfl⟩
          | succ i' =>
              simp only [List.get?_cons_succ] at ha ⊢
              exact ih hxs i' a ha

theorem mapM_ok_length {α β : Type} {f : α → Except RmErr β} :
    ∀ {l : List α} {res : List β}, l.mapM f = .ok res → res.length = l.length := by
  intro l
  induction l with
  | nil =>
      intro res h
      rw [List.mapM_nil] at h
      have h' := Except.ok.inj h
      subst h'
      rfl
  | cons x xs ih =>
      intro res h
      rw [List.mapM_cons] at h
      rcases hx : f x with e | b
      · rw [hx] at h
        exact Except.noConfusion h
      · rw [hx] at h
        rcases hxs : xs.mapM f with e | bs
        · rw [hxs] at h
          exact Except.noConfusion h
        · rw [hxs] at h
          have h' := Except.ok.inj h
          subst h'
          simp [ih hxs]

theorem mapM_ok_of_pointwise {β : Type} {f : Nat → Except RmErr β} (g : Nat → β) :
    ∀ {n : Nat}, (∀ i < n, f i = .ok (g i)) →
      (List.range n).mapM f = .ok ((List.range n).map g) := by
  intro n
  induction n with
  | zero =>
      intro _
      rfl
  | succ n ih =>
      intro hp
      rw [List.range_succ, List.mapM_append, List.map_append,
        ih (fun i hi => hp i (by omega))]
      simp only [List.mapM_cons, List.mapM_nil, hp n (by omega), List.map_cons, List.map_nil]
      rfl

/-! ### Evaluating `axisDecode` under each detection outcome -/

theorem famAll_false_of_missing {h : FitsHeader} {fam ax : String} {L : Nat}
    (hm : ∃ j, j < L ∧ hGet h (famKey fam ax (j + 1)) = none) :
    (famKeys fam ax L).all (hContains h) = false := by
  obtain ⟨j, hj, hnone⟩ := hm
  rw [Bool.eq_false_iff]
  intro hall
  have hmem : famKey fam ax (j + 1) ∈ famKeys fam ax L := by
    simp only [famKeys, List.mem_map, List.mem_range]
    exact ⟨j, hj, rfl⟩
  have := List.all_eq_true.mp hall _ hmem
  rw [hContains, hnone] at this
  simp at this

theorem famAll_true_of_all {h : FitsHeader} {fam ax : String} {L : Nat}
    (ha : ∀ j < L, (hGet h (famKey fam ax (j + 1))).isSome = true) :
    (famKeys fam ax L).all (hContains h) = true := by
  rw [List.all_eq_true]
  intro k hk
  simp only [famKeys, List.mem_map, List.mem_range] at hk
  obtain ⟨j, hj, rfl⟩ := hk
  rw [hContains]
  exact ha j hj

theorem axisDecode_regular {h : FitsHeader} {ax : String} (L : Nat) {p v d : ℚ}
    (hp : hGet h ("CRPIX" ++ ax) = some (.num p))
    (hv : hGet h ("CRVAL" ++ ax) = some (.num v))
    (hd : hGet h ("CDELT" ++ ax) = some (.num d)) :
    axisDecode h ax L = .ok ⟨(hGet h ("CNAME" ++ ax)).getD (.str ""),
      (hGet h ("CUNIT" ++ ax)).getD (.str ""), "regular",
      (List.range L).map (fun k => .num (((k : ℚ) + 1 - p) * d + v))⟩ := by
  unfold axisDecode
  simp only [hContains, hp, hv, hd, Option.isSome_some, Bool.and_self, if_true]

theorem axisDecode_irregular {h : FitsHeader} {ax : String} (L : Nat)
    (hreg : (hContains h ("CRPIX" ++ ax) && hContains h ("CRVAL" ++ ax) &&
      hContains h ("CDELT" ++ ax)) = false)
    (hirr : (famKeys "PV" ax L).all (hContains h) = true) :
    axisDecode h ax L = .ok ⟨(hGet h ("CNAME" ++ ax)).getD (.str ""),
      (hGet h ("CUNIT" ++ ax)).getD (.str ""), "irregular",
      (famKeys "PV" ax L).map (fun key => (hGet h key).getD (.str ""))⟩ := by
  unfold axisDecode
  simp only [hreg, hirr, Bool.false_eq_true, if_false, if_true]

theorem axisDecode_labeled {h : FitsHeader} {ax : String} (L : Nat)
    (hreg : (hContains h ("CRPIX" ++ ax) && hContains h ("CRVAL" ++ ax) &&
      hContains h ("CDELT" ++ ax)) = false)
    (hirr : (famKeys "PV" ax L).all (hContains h) = false)
    (hlab : (famKeys "PS" ax L).all (hContains h) = true) :
    axisDecode h ax L = .ok ⟨(hGet h ("CNAME" ++ ax)).getD (.str ""),
      (hGet h ("CUNIT" ++ ax)).getD (.str ""), "labeled",
      (famKeys "PS" ax L).map (fun key => (hGet h key).getD (.str ""))⟩ := by
  unfold axisDecode
  simp only [hreg, hirr, hlab, Bool.false_eq_true, if_false, if_true]

theorem axisDecode_named {h : FitsHeader} {ax : String} (L : Nat)
    (hreg : (hContains h ("CRPIX" ++ ax) && hContains h ("CRVAL" ++ ax) &&
      hContains h ("CDELT" ++ ax)) = false)
    (hirr : (famKeys "PV" ax L).all (hContains h) = false)
    (hlab : (famKeys "PS" ax L).all (hContains h) = false)
    (hnam : (famKeys "N" ax L).all (hContains h) = true) :
    axisDecode h ax L = .ok ⟨(hGet h ("CNAME" ++ ax)).getD (.str ""),
      (hGet h ("CUNIT" ++ ax)).getD (.str ""), "named",
      (famKeys "N" ax L).map (fun key => (hGet h key).getD (.str ""))⟩ := by
  unfold axisDecode
  simp only [hreg, hirr, hlab, hnam, Bool.false_eq_true, if_false, if_true]

theorem axisDecode_index {h : FitsHeader} {ax : String} (L : Nat)
    (hreg : (hContains h ("CRPIX" ++ ax) && hContains h ("CRVAL" ++ ax) &&
      hContains h ("CDELT" ++ ax)) = false)
    (hirr : (famKeys "PV" ax L).all (hContains h) = false)
    (hlab : (famKeys "PS" ax L).all (hContains h) = false)
    (hnam : (famKeys "N" ax L).all (hContains h) = false) :
    axisDecode h ax L = .ok ⟨(hGet h ("CNAME" ++ ax)).getD (.str ""),
      (hGet h ("CUNIT" ++ ax)).getD (.str ""), "index",
      (List.range L).map (fun k => .num ((k : ℚ) + 1))⟩ := by
  unfold axisDecode
  simp only [hreg, hirr, hlab, hnam, Bool.false_eq_true, if_false, if_true]

theorem axisDecode_of_regular_true {h : FitsHeader} {ax : String} (L : Nat)
    (hreg : (hContains h ("CRPIX" ++ ax) && hContains h ("CRVAL" ++ ax) &&
      hContains h ("CDELT" ++ ax)) = true) :
    axisDecode h ax L =
      (match hGet h ("CRPIX" ++ ax), hGet h ("CRVAL" ++ ax), hGet h ("CDELT" ++ ax) with
        | some (.num p), some (.num v), some (.num d) =>
            .ok ⟨(hGet h ("CNAME" ++ ax)).getD (.str ""),
              (hGet h ("CUNIT" ++ ax)).getD (.str ""), "regular",
              (List.range L).map (fun k => .num (((k : ℚ) + 1 - p) * d + v))⟩
        | _, _, _ => .error .TypeError) := by
  unfold axisDecode
  simp only [hreg, if_true]

theorem axisDecode_kind_regular_of {h : FitsHeader} {ax : String} {L : Nat} {r : AxisRes}
    (hreg : (hContains h ("CRPIX" ++ ax) && hContains h ("CRVAL" ++ ax) &&
      hContains h ("CDELT" ++ ax)) = true)
    (hr : axisDecode h ax L = .ok r) : r.kind = "regular" := by
  rw [axisDecode_of_regular_true L hreg] at hr
  rcases hp : hGet h ("CRPIX" ++ ax) with _ | vp
  · simp [hContains, hp] at hreg
  · rcases hv : hGet h ("CRVAL" ++ ax) with _ | vv
    · simp [hContains, hv] at hreg
    · rcases hd : hGet h ("CDELT" ++ ax) with _ | vd
      · simp [hContains, hd] at hreg
      · rw [hp, hv, hd] at hr
        rcases vp with p | sp
        · rcases vv with v | sv
          · rcases vd with d | sd
            · have h' := Except.ok.inj hr
              rw [← h']
            · exact Except.noConfusion hr
          · exact Except.noConfusion hr
        · exact Except.noConfusion hr

theorem axisDecode_kind_ne_irregular {h : FitsHeader} {ax : String} {L : Nat} {r : AxisRes}
    (hr : axisDecode h ax L = .ok r)
    (hir : (famKeys "PV" ax L).all (hContains h) = false) :
    r.kind ≠ "irregular" := by
  rcases hreg : (hContains h ("CRPIX" ++ ax) && hContains h ("CRVAL" ++ ax) &&
      hContains h ("CDELT" ++ ax)) with _ | _
  · rcases hlab : (famKeys "PS" ax L).all (hContains h) with _ | _
    · rcases hnam : (famKeys "N" ax L).all (hContains h) with _ | _
      · rw [axisDecode_index L hreg hir hlab hnam] at hr
        have h' := Except.ok.inj hr
        rw [← h']
        exact (by decide : ("index" : String) ≠ "irregular")
      · rw [axisDecode_named L hreg hir hlab hnam] at hr
        have h' := Except.ok.inj hr
        rw [← h']
        exact (by decide : ("named" : String) ≠ "irregular")
    · rw [axisDecode_labeled L hreg hir hlab] at hr
      have h' := Except.ok.inj hr
      rw [← h']
      exact (by decide : ("labeled" : String) ≠ "irregular")
  · rw [axisDecode_kind_regular_of hreg hr]
    decide

/-! ### Claims C2–C5, C9 -/

instance : Inhabited FitsVal := ⟨.str ""⟩

instance : Inhabited ReadResult :=
  ⟨⟨⟨[], []⟩, [], "", "", "", default, default, default, default, [], [], []⟩⟩

/-- The decoded result of a read that is known to succeed (used only to
name concrete witnesses). -/
def resOf (e : Except RmErr ReadResult) : ReadResult :=
  match e with
  | .ok r => r
  | .error _ => default

/-- Claim C2: for a parameter axis detected as regular on decode with
reference pixel 1, reference value `v0`, increment `d` and axis length
`L`, the baseline returned by `read_ndArch` is the arithmetic progression
`[v0, v0+d, …, v0+(L-1)d]` and the axis type is `'regular'`. -/
theorem C2_regular_reconstruction (c : FitsFile) (r : ReadResult) (i : Nat) (v0 d : ℚ)
    (hr : read_ndArch c = .ok r)
    (hi : i < c.data.shape.length - 1)
    (hp : hGet c.header ("CRPIX" ++ natStr (c.data.shape.length - 1 + 1 - i)) =
      some (.num 1))
    (hv : hGet c.header ("CRVAL" ++ natStr (c.data.shape.length - 1 + 1 - i)) =
      some (.num v0))
    (hd : hGet c.header ("CDELT" ++ natStr (c.data.shape.length - 1 + 1 - i)) =
      some (.num d)) :
    r.par_axistype.get? i = some "regular" ∧
    r.baselines.get? i =
      some ((List.range (c.data.shape.getD i 0)).map
        (fun k => FitsVal.num (v0 + (k : ℚ) * d))) := by
  obtain ⟨axres, hm, hdata, hbl, hnm, hun, hkd⟩ := read_ok_inv hr
  obtain ⟨b, hb, hbg⟩ := mapM_ok_nth hm i i (List.get?_range hi)
  rw [axisDecode_regular (c.data.shape.getD i 0) hp hv hd] at hb
  have hbeq := Except.ok.inj hb
  constructor
  · rw [hkd, List.get?_map, hbg, ← hbeq]
    rfl
  · rw [hbl, List.get?_map, hbg, ← hbeq]
    show some _ = some _
    refine congrArg some ?_
    show (List.range (c.data.shape.getD i 0)).map
        (fun k => FitsVal.num (((k : ℚ) + 1 - 1) * d + v0)) = _
    refine List.map_congr_left (fun k _ => ?_)
    refine congrArg FitsVal.num ?_
    ring

/-- A concrete archive with one regular parameter axis
(`CRPIX2 = 1`, `CRVAL2 = 5`, `CDELT2 = 2`, length 2). -/
def wC2file : FitsFile :=
  ⟨"ndArch-T-v0.fits", ⟨[2, 3], []⟩,
    [("CRVAL1", .num (7/2)), ("CDELT1", .num (1/10000)), ("NAXIS1", .num 3),
     ("CRPIX2", .num 1), ("CRVAL2", .num 5), ("CDELT2", .num 2)]⟩

theorem C2_regular_reconstruction_witness :
    (resOf (read_ndArch wC2file)).par_axistype.get? 0 = some "regular" ∧
    (resOf (read_ndArch wC2file)).baselines.get? 0 =
      some ((List.range 2).map (fun k => FitsVal.num (5 + (k : ℚ) * 2))) :=
  C2_regular_reconstruction wC2file (resOf (read_ndArch wC2file)) 0 5 2
    (by rfl) (by decide) (by rfl) (by rfl) (by rfl)

/-- Claim C3: an axis whose `PV{ax}_{j}` family is incomplete is never
classified `irregular`; and an axis where the regular triple and all
three keyword families are incomplete is classified `index` with
baseline `[1, 2, …, L]`. -/
theorem C3_all_or_nothing (c : FitsFile) (r : ReadResult) (i : Nat)
    (hr : read_ndArch c = .ok r)
    (hi : i < c.data.shape.length - 1) :
    ((∃ j, j < c.data.shape.getD i 0 ∧
        hGet c.header (famKey "PV" (natStr (c.data.shape.length - 1 + 1 - i)) (j + 1)) =
          none) →
      r.par_axistype.get? i ≠ some "irregular") ∧
    (hGet c.header ("CRPIX" ++ natStr (c.data.shape.length - 1 + 1 - i)) = none →
      (∃ j, j < c.data.shape.getD i 0 ∧
        hGet c.header (famKey "PV" (natStr (c.data.shape.length - 1 + 1 - i)) (j + 1)) =
          none) →
      (∃ j, j < c.data.shape.getD i 0 ∧
        hGet c.header (famKey "PS" (natStr (c.data.shape.length - 1 + 1 - i)) (j + 1)) =
          none) →
      (∃ j, j < c.data.shape.getD i 0 ∧
        hGet c.header (famKey "N" (natStr (c.data.shape.length - 1 + 1 - i)) (j + 1)) =
          none) →
      r.par_axistype.get? i = some "index" ∧
      r.baselines.get? i =
        some ((List.range (c.data.shape.getD i 0)).map
          (fun k => FitsVal.num ((k : ℚ) + 1)))) := by
  obtain ⟨axres, hm, hdata, hbl, hnm, hun, hkd⟩ := read_ok_inv hr
  obtain ⟨b, hb, hbg⟩ := mapM_ok_nth hm i i (List.get?_range hi)
  constructor
  · intro hmiss heq
    have hir := famAll_false_of_missing hmiss
    have hne := axisDecode_kind_ne_irregular hb hir
    rw [hkd, List.get?_map, hbg] at heq
    exact hne (Option.some.inj heq)
  · intro hcr hpv hps hn
    have hreg : (hContains c.header
        ("CRPIX" ++ natStr (c.data.shape.length - 1 + 1 - i)) &&
        hContains c.header ("CRVAL" ++ natStr (c.data.shape.length - 1 + 1 - i)) &&
        hContains c.header ("CDELT" ++ natStr (c.data.shape.length - 1 + 1 - i))) =
        false := by
      simp [hContains, hcr]
    rw [axisDecode_index (c.data.shape.getD i 0) hreg (famAll_false_of_missing hpv)
      (famAll_false_of_missing hps) (famAll_false_of_missing hn)] at hb
    have hbeq := Except.ok.inj hb
    constructor
    · rw [hkd, List.get?_map, hbg, ← hbeq]
      rfl
    · rw [hbl, List.get?_map, hbg, ← hbeq]
      rfl

/-- A concrete archive with one parameter axis of length 2 whose `PV`
family is incomplete (`PV2_1` present, `PV2_2` absent) and no other
axis keys. -/
def wC3file : FitsFile :=
  ⟨"ndArch-T-v0.fits", ⟨[2, 4], []⟩,
    [("CRVAL1", .num (7/2)), ("CDELT1", .num (1/10000)), ("NAXIS1", .num 4),
     ("PV2_1", .num 11)]⟩

theorem C3_all_or_nothing_witness :
    (resOf (read_ndArch wC3file)).par_axistype.get? 0 ≠ some "irregular" ∧
    (resOf (read_ndArch wC3file)).par_axistype.get? 0 = some "index" ∧
    (resOf (read_ndArch wC3file)).baselines.get? 0 =
      some ((List.range 2).map (fun k => FitsVal.num ((k : ℚ) + 1))) := by
  have H := C3_all_or_nothing wC3file (resOf (read_ndArch wC3file)) 0 (by rfl) (by decide)
  refine ⟨H.1 ⟨1, by decide, by rfl⟩, H.2 (by rfl) ⟨1, by decide, by rfl⟩
    ⟨0, by decide, by rfl⟩ ⟨0, by decide, by rfl⟩⟩

/-- Claim C4: a valid 1-dimensional archive (rank 1, so `npar = 0`)
decodes without error and with an empty baseline sequence. -/
theorem C4_zero_parameter (c : FitsFile) (w : Nat)
    (hsh : c.data.shape = [w])
    (hparts : 2 ≤ (splitSep '-' (pyRoot c.fname.data)).length)
    (h0 : (hGet c.header "CRVAL1").isSome = true)
    (h1 : (hGet c.header "CDELT1").isSome = true)
    (h2 : (hGet c.header "NAXIS1").isSome = true) :
    ∃ r, read_ndArch c = .ok r ∧ r.baselines = [] := by
  rcases hx0 : hGet c.header "CRVAL1" with _ | v0
  · rw [hx0] at h0
    simp at h0
  rcases hx1 : hGet c.header "CDELT1" with _ | v1
  · rw [hx1] at h1
    simp at h1
  rcases hx2 : hGet c.header "NAXIS1" with _ | vn
  · rw [hx2] at h2
    simp at h2
  have hm : (List.range (c.data.shape.length - 1)).mapM (fun ipar =>
      axisDecode c.header (natStr (c.data.shape.length - 1 + 1 - ipar))
        (c.data.shape.getD ipar 0)) = .ok ([] : List AxisRes) := by
    rw [hsh]
    rfl
  exact ⟨_, read_ok_of c hparts (by rw [hsh]; rfl) hx0 hx1 hx2 hm, rfl⟩

/-- A concrete valid one-dimensional archive. -/
def wC4file : FitsFile :=
  ⟨"ndArch-T-v0.fits", ⟨[3], [1, 2, 3]⟩,
    [("CRVAL1", .num (7/2)), ("CDELT1", .num (1/10000)), ("NAXIS1", .num 3)]⟩

theorem C4_zero_parameter_witness :
    ∃ r, read_ndArch wC4file = .ok r ∧ r.baselines = [] :=
  C4_zero_parameter wC4file 3 (by rfl) (by decide) (by rfl) (by rfl) (by rfl)

/-- Claim C5: decoding a container whose header lacks both `CRVAL1` and
`CDELT1` fails with `MalformedArchiveError` (no fallback wavelength
grid); the filename itself parses, so the failure is the missing
wavelength keywords. -/
theorem C5_missing_wavelength_keys (c : FitsFile)
    (hparts : 2 ≤ (splitSep '-' (pyRoot c.fname.data)).length)
    (h0 : hGet c.header "CRVAL1" = none)
    (_h1 : hGet c.header "CDELT1" = none) :
    read_ndArch c = .error .MalformedArchiveError :=
  read_noCRVAL1 c hparts h0

/-- A concrete container with neither `CRVAL1` nor `CDELT1`. -/
def wC5file : FitsFile :=
  ⟨"ndArch-T-v0.fits", ⟨[3], [1, 2, 3]⟩, [("NAXIS1", .num 3)]⟩

theorem C5_missing_wavelength_keys_witness :
    read_ndArch wC5file = .error .MalformedArchiveError :=
  C5_missing_wavelength_keys wC5file (by decide) (by rfl) (by rfl)

/-- Claim C9 (code bug): `Write_Redmonster.__init__` in io2.py defaults
`clobber` to `True`, and `write_fiber` overrides any caller-supplied
value with `self.clobber = True` (its "Temporary fix!!"), so with the
default construction both `write_fiber` and `write_plate` overwrite an
existing output file instead of writing under a timestamp-appended
name — contrary to the class's own docstring and to the claim. -/
theorem C9_clobber_default_bug :
    initClobber none = true ∧
    (∀ (c e : Bool) (b s : String), write_fiber_op c e b s = .clobberWrite b) ∧
    write_plate_op (initClobber none) true "redmonster-0000-00000.fits"
      "redmonster-0000-00000-stamp.fits" = .clobberWrite "redmonster-0000-00000.fits" :=
  ⟨rfl, fun _ _ _ _ => rfl, rfl⟩

/-! ### `split('-')` and `rfind('.fits')` lemmas for filename parsing -/

theorem splitSep_nil (sep : Char) : splitSep sep [] = [[]] := rfl

theorem splitSep_cons (sep c : Char) (l : List Char) :
    splitSep sep (c :: l) =
      if c = sep then [] :: splitSep sep l
      else
        match splitSep sep l with
        | a :: rest => (c :: a) :: rest
        | [] => [[c]] := rfl

theorem splitSep_exists_cons (sep : Char) (l : List Char) :
    ∃ a rest, splitSep sep l = a :: rest := by
  induction l with
  | nil => exact ⟨[], [], rfl⟩
  | cons c t ih =>
      obtain ⟨a, rest, ha⟩ := ih
      rw [splitSep_cons]
      by_cases hc : c = sep
      · exact ⟨[], _, by rw [if_pos hc]⟩
      · rw [if_neg hc, ha]
        exact ⟨c :: a, rest, rfl⟩

theorem splitSep_foldr_aux (sep : Char) :
    ∀ (l : List Char) (R : List (List Char)),
      l.foldr (fun c acc => if c = sep then [] :: acc else
        match acc with
        | a :: rest => (c :: a) :: rest
        | [] => [[c]]) ([] :: R) =
      splitSep sep l ++ R := by
  intro l
  induction l with
  | nil => intro R; rfl
  | cons c t ih =>
      intro R
      simp only [List.foldr_cons]
      rw [ih]
      by_cases hc : c = sep
      · rw [if_pos hc, splitSep_cons, if_pos hc]
        rfl
      · rw [if_neg hc, splitSep_cons, if_neg hc]
        obtain ⟨a, rest, ha⟩ := splitSep_exists_cons sep t
        rw [ha]
        rfl

theorem splitSep_append (sep : Char) (l1 l2 : List Char) :
    splitSep sep (l1 ++ sep :: l2) = splitSep sep l1 ++ splitSep sep l2 := by
  show (l1 ++ sep :: l2).foldr _ [[]] = _
  rw [List.foldr_append]
  have h1 : (sep :: l2).foldr (fun c acc => if c = sep then [] :: acc else
      match acc with
      | a :: rest => (c :: a) :: rest
      | [] => [[c]]) [[]] = [] :: splitSep sep l2 := by
    simp only [List.foldr_cons, if_true]
    rfl
  rw [h1, splitSep_foldr_aux]

theorem splitSep_nosep {sep : Char} {l : List Char} (h : sep ∉ l) :
    splitSep sep l = [l] := by
  induction l with
  | nil => rfl
  | cons c t ih =>
      rw [splitSep_cons, if_neg (fun hc => h (by rw [hc]; simp)),
        ih (fun ht => h (by simp [ht]))]

theorem revRange_find?_eq {P : Nat → Bool} {N m : Nat} (hm : m ≤ N) (hP : P m = true)
    (habove : ∀ i, m < i → i ≤ N → P i = false) :
    (List.range (N + 1)).reverse.find? P = some m := by
  induction N with
  | zero =>
      interval_cases m
      simp [List.range_succ, List.find?_cons, hP]
  | succ N ih =>
      rw [List.range_succ, List.reverse_append]
      by_cases hm1 : m = N + 1
      · subst hm1
        simp [List.find?_cons, hP]
      · have hPn : P (N + 1) = false := habove (N + 1) (by omega) (le_refl _)
        simp only [List.reverse_cons, List.reverse_nil, List.nil_append,
          List.singleton_append, List.find?_cons, hPn]
        exact ih (by omega) (fun i hi hle => habove i hi (by omega))

theorem subAt_at_suffix (base pat : List Char) : subAt (base ++ pat) pat base.length = true := by
  unfold subAt
  rw [List.drop_left, List.take_length]
  simp

theorem subAt_beyond {s pat : List Char} (i : Nat) (hi : s.length < i + pat.length)
    (hpat : pat ≠ []) : subAt s pat i = false := by
  unfold subAt
  apply decide_eq_false
  intro h
  have hl := congrArg List.length h
  simp only [List.length_take, List.length_drop] at hl
  have hp : 0 < pat.length := List.length_pos.mpr hpat
  omega

theorem pyRfind_suffix (base pat : List Char) (hpat : pat ≠ []) :
    pyRfind (base ++ pat) pat = (base.length : Int) := by
  unfold pyRfind
  have hlen : (base ++ pat).length = base.length + pat.length := by simp
  rw [hlen]
  rw [revRange_find?_eq (N := base.length + pat.length) (by omega) (subAt_at_suffix base pat)
    (fun i hi hle => subAt_beyond i (by rw [hlen]; omega) hpat)]

theorem pyRoot_fits (base : List Char) : pyRoot (base ++ ".fits".data) = base := by
  unfold pyRoot
  rw [pyRfind_suffix base ".fits".data (by decide)]
  unfold pySliceTo
  rw [if_neg (by omega)]
  show List.take (Int.toNat _) _ = base
  rw [Int.toNat_ofNat, List.take_left]

/-! ### Claim C6: filename parsing -/

theorem dash_data : ("-" : String).data = ['-'] := rfl

/-- `"ndArch-STAR-v1.ext"`: an archive whose extension is not `.fits`. -/
def wC6ext : FitsFile :=
  ⟨"ndArch-STAR-v1.ext", ⟨[3], []⟩,
    [("CRVAL1", .num 1), ("CDELT1", .num 1), ("NAXIS1", .num 3)]⟩

/-- `"bad.ext"`: no `-`-delimited class/version. -/
def wC6badExt : FitsFile :=
  ⟨"bad.ext", ⟨[3], []⟩,
    [("CRVAL1", .num 1), ("CDELT1", .num 1), ("NAXIS1", .num 3)]⟩

/-- `"bad.fits"`: no `-`-delimited class/version. -/
def wC6badFits : FitsFile :=
  ⟨"bad.fits", ⟨[3], []⟩,
    [("CRVAL1", .num 1), ("CDELT1", .num 1), ("NAXIS1", .num 3)]⟩

/-- Counterexample to claim C6 as stated: `read_ndArch` on an otherwise
valid container named `"ndArch-STAR-v1.ext"` succeeds and yields
`class = "STAR"` but `version = "v1.ex"`, not `"v1"` — only the literal
suffix `'.fits'` is stripped, and `rfind` returning `-1` makes the slice
drop a single character. -/
theorem C6_counterexample :
    read_ndArch wC6ext = .ok (resOf (read_ndArch wC6ext)) ∧
    (resOf (read_ndArch wC6ext)).klass = "STAR" ∧
    (resOf (read_ndArch wC6ext)).version = "v1.ex" ∧
    "v1.ex" ≠ "v1" :=
  ⟨rfl, rfl, rfl, by decide⟩

/-- Claim C6 as amended: for filenames of the form
`<prefix>-<CLASS>-<VERSION>.fits` (class and version free of `-`),
`read_ndArch` derives exactly `CLASS` and `VERSION`; for a filename not
containing `'.fits'` only the final character is dropped before
splitting, so `"ndArch-STAR-v1.ext"` parses to class `"STAR"` and
version `"v1.ex"`; and a name with fewer than two `-`-delimited tokens
before the (possibly mangled) extension — `"bad.ext"` or `"bad.fits"` —
raises `InvalidNameError`. -/
theorem C6_filename_amended (p cc vv : String) (c : FitsFile) (w : Nat)
    (hname : c.fname = p ++ "-" ++ cc ++ "-" ++ vv ++ ".fits")
    (hcc : '-' ∉ cc.data) (hvv : '-' ∉ vv.data)
    (hsh : c.data.shape = [w])
    (h0 : (hGet c.header "CRVAL1").isSome = true)
    (h1 : (hGet c.header "CDELT1").isSome = true)
    (h2 : (hGet c.header "NAXIS1").isSome = true) :
    (∃ r, read_ndArch c = .ok r ∧ r.klass = cc ∧ r.version = vv) ∧
    ((resOf (read_ndArch wC6ext)).klass = "STAR" ∧
      (resOf (read_ndArch wC6ext)).version = "v1.ex") ∧
    read_ndArch wC6badExt = .error .InvalidNameError ∧
    read_ndArch wC6badFits = .error .InvalidNameError := by
  refine ⟨?_, ⟨rfl, rfl⟩, rfl, rfl⟩
  have hdata : c.fname.data = (p.data ++ '-' :: (cc.data ++ '-' :: vv.data)) ++ ".fits".data := by
    rw [hname]
    simp [string_data_append, dash_data, List.append_assoc]
  have hroot : pyRoot c.fname.data = p.data ++ '-' :: (cc.data ++ '-' :: vv.data) := by
    rw [hdata, pyRoot_fits]
  have hparts : splitSep '-' (pyRoot c.fname.data) =
      splitSep '-' p.data ++ [cc.data, vv.data] := by
    rw [hroot, splitSep_append, splitSep_append, splitSep_nosep hcc, splitSep_nosep hvv]
    rfl
  have hlen : (splitSep '-' (pyRoot c.fname.data)).length =
      (splitSep '-' p.data).length + 2 := by
    rw [hparts]
    simp
  rcases hx0 : hGet c.header "CRVAL1" with _ | v0
  · rw [hx0] at h0
    simp at h0
  rcases hx1 : hGet c.header "CDELT1" with _ | v1
  · rw [hx1] at h1
    simp at h1
  rcases hx2 : hGet c.header "NAXIS1" with _ | vn
  · rw [hx2] at h2
    simp at h2
  have hm : (List.range (c.data.shape.length - 1)).mapM (fun ipar =>
      axisDecode c.header (natStr (c.data.shape.length - 1 + 1 - ipar))
        (c.data.shape.getD ipar 0)) = .ok ([] : List AxisRes) := by
    rw [hsh]
    rfl
  refine ⟨_, read_ok_of c (by omega) (by rw [hsh]; rfl) hx0 hx1 hx2 hm, ?_, ?_⟩
  · show String.mk ((splitSep '-' (pyRoot c.fname.data)).getD
      ((splitSep '-' (pyRoot c.fname.data)).length - 2) []) = cc
    rw [hlen, hparts]
    rw [List.getD_eq_get?]
    rw [show (splitSep '-' p.data).length + 2 - 2 = (splitSep '-' p.data).length by omega]
    rw [List.get?_append_right (le_refl _)]
    simp
  · show String.mk ((splitSep '-' (pyRoot c.fname.data)).getD
      ((splitSep '-' (pyRoot c.fname.data)).length - 1) []) = vv
    rw [hlen, hparts]
    rw [List.getD_eq_get?]
    rw [show (splitSep '-' p.data).length + 2 - 1 = (splitSep '-' p.data).length + 1 by omega]
    rw [List.get?_append_right (by omega)]
    simp

/-- A concrete `.fits`-named archive for the amended claim. -/
def wC6fits : FitsFile :=
  ⟨"ndArch-STAR-v7.fits", ⟨[3], []⟩,
    [("CRVAL1", .num 1), ("CDELT1", .num 1), ("NAXIS1", .num 3)]⟩

theorem C6_filename_amended_witness :
    ∃ r, read_ndArch wC6fits = .ok r ∧ r.klass = "STAR" ∧ r.version = "v7" :=
  (C6_filename_amended "ndArch" "STAR" "v7" wC6fits 3 (by decide) (by decide) (by decide)
    (by rfl) (by rfl) (by rfl) (by rfl)).1

/-! ### Inverting the writer's monadic structure -/

theorem except_bind_ok {α β : Type} {x : Except RmErr α} {f : α → Except RmErr β} {b : β}
    (h : (x >>= f) = .ok b) : ∃ a, x = .ok a ∧ f a = .ok b := by
  rcases x with e | a
  · exact Except.noConfusion h
  · exact ⟨a, rfl, h⟩

theorem all_congr_mem {α : Type} {l : List α} {f g : α → Bool}
    (h : ∀ a ∈ l, f a = g a) : l.all f = l.all g := by
  induction l with
  | nil => rfl
  | cons x t ih =>
      simp only [List.all_cons]
      rw [h x (by simp), ih (fun a ha => h a (by simp [ha]))]

theorem mem_axisAllKeys_cname (ax : String) (L : Nat) :
    "CNAME" ++ ax ∈ axisAllKeys ax L := by simp [axisAllKeys]

theorem mem_axisAllKeys_cunit (ax : String) (L : Nat) :
    "CUNIT" ++ ax ∈ axisAllKeys ax L := by simp [axisAllKeys]

theorem mem_axisAllKeys_crpix (ax : String) (L : Nat) :
    "CRPIX" ++ ax ∈ axisAllKeys ax L := by simp [axisAllKeys]

theorem mem_axisAllKeys_crval (ax : String) (L : Nat) :
    "CRVAL" ++ ax ∈ axisAllKeys ax L := by simp [axisAllKeys]

theorem mem_axisAllKeys_cdelt (ax : String) (L : Nat) :
    "CDELT" ++ ax ∈ axisAllKeys ax L := by simp [axisAllKeys]

theorem mem_axisAllKeys_pv {j L : Nat} (ax : String) (hj : j < L) :
    famKey "PV" ax (j + 1) ∈ axisAllKeys ax L := by
  simp only [axisAllKeys, famKeys, List.mem_append, List.mem_cons, List.mem_map,
    List.mem_range, List.not_mem_nil, or_false]
  exact Or.inr (Or.inl ⟨j, hj, rfl⟩)

theorem mem_axisAllKeys_ps {j L : Nat} (ax : String) (hj : j < L) :
    famKey "PS" ax (j + 1) ∈ axisAllKeys ax L := by
  simp only [axisAllKeys, famKeys, List.mem_append, List.mem_cons, List.mem_map,
    List.mem_range, List.not_mem_nil, or_false]
  exact Or.inr (Or.inr (Or.inl ⟨j, hj, rfl⟩))

theorem mem_axisAllKeys_n {j L : Nat} (ax : String) (hj : j < L) :
    famKey "N" ax (j + 1) ∈ axisAllKeys ax L := by
  simp only [axisAllKeys, famKeys, List.mem_append, List.mem_cons, List.mem_map,
    List.mem_range, List.not_mem_nil, or_false]
  exact Or.inr (Or.inr (Or.inr ⟨j, hj, rfl⟩))

theorem famFold_frame (fam ax : String) (b : List FitsVal) :
    ∀ (L : Nat) (h h' : FitsHeader),
      (List.range L).foldlM (fun hh j => do
        let v ← pyGet b j
        pure (hSet hh (famKey fam ax (j + 1)) v)) h = .ok h' →
      ∀ K, (∀ j < L, K ≠ famKey fam ax (j + 1)) → hGet h' K = hGet h K := by
  intro L
  induction L with
  | zero =>
      intro h h' hf K _
      rw [← Except.ok.inj hf]
  | succ L ih =>
      intro h h' hf K hK
      rw [List.range_succ, List.foldlM_append] at hf
      obtain ⟨hmid, hf1, hf2⟩ := except_bind_ok hf
      simp only [List.foldlM_cons, List.foldlM_nil] at hf2
      obtain ⟨v, hv, hf3⟩ := except_bind_ok hf2
      obtain ⟨w, hw, hv2⟩ := except_bind_ok hv
      have h2 : h' = hSet hmid (famKey fam ax (L + 1)) w := by
        rw [← Except.ok.inj hf3, ← Except.ok.inj hv2]
      rw [h2, hGet_hSet_ne hmid (hK L (by omega)) w]
      exact ih h hmid hf1 K (fun j hj => hK j (by omega))

theorem axisWrite_preserves {shape : List Nat} {npars : Nat} {bs : List (List FitsVal)}
    {info : WInfo} {h h' : FitsHeader} {ipar : Nat}
    (hw : axisWrite shape npars bs info h ipar = .ok h')
    {K : String}
    (hK : K ∉ axisAllKeys (natStr (npars + 1 - ipar)) (shape.getD ipar 0)) :
    hGet h' K = hGet h K := by
  have hK1 : K ≠ "CNAME" ++ natStr (npars + 1 - ipar) :=
    fun e => hK (by rw [e]; exact mem_axisAllKeys_cname _ _)
  have hK2 : K ≠ "CUNIT" ++ natStr (npars + 1 - ipar) :=
    fun e => hK (by rw [e]; exact mem_axisAllKeys_cunit _ _)
  have hK3 : K ≠ "CRPIX" ++ natStr (npars + 1 - ipar) :=
    fun e => hK (by rw [e]; exact mem_axisAllKeys_crpix _ _)
  have hK4 : K ≠ "CRVAL" ++ natStr (npars + 1 - ipar) :=
    fun e => hK (by rw [e]; exact mem_axisAllKeys_crval _ _)
  have hK5 : K ≠ "CDELT" ++ natStr (npars + 1 - ipar) :=
    fun e => hK (by rw [e]; exact mem_axisAllKeys_cdelt _ _)
  have hKpv : ∀ j < shape.getD ipar 0, K ≠ famKey "PV" (natStr (npars + 1 - ipar)) (j + 1) :=
    fun j hj e => hK (by rw [e]; exact mem_axisAllKeys_pv _ hj)
  have hKps : ∀ j < shape.getD ipar 0, K ≠ famKey "PS" (natStr (npars + 1 - ipar)) (j + 1) :=
    fun j hj e => hK (by rw [e]; exact mem_axisAllKeys_ps _ hj)
  have hKn : ∀ j < shape.getD ipar 0, K ≠ famKey "N" (natStr (npars + 1 - ipar)) (j + 1) :=
    fun j hj e => hK (by rw [e]; exact mem_axisAllKeys_n _ hj)
  unfold axisWrite at hw
  obtain ⟨h1, hm1, hw2⟩ := except_bind_ok hw
  obtain ⟨h2, hm2, hw4⟩ := except_bind_ok hw2
  obtain ⟨kind, hmk, hw4⟩ := except_bind_ok hw4
  have hh1 : hGet h1 K = hGet h K := by
    unfold setNameW at hm1
    rcases hn : info.par_names with _ | ns
    · rw [hn] at hm1
      rw [← Except.ok.inj hm1]
    · rw [hn] at hm1
      obtain ⟨v, _, hm1'⟩ := except_bind_ok hm1
      rw [← Except.ok.inj hm1']
      exact hGet_hSet_ne h hK1 _
  have hh2 : hGet h2 K = hGet h1 K := by
    unfold setUnitW at hm2
    rcases hu : info.par_units with _ | us
    · rw [hu] at hm2
      rw [← Except.ok.inj hm2]
    · rw [hu] at hm2
      obtain ⟨v, _, hm2'⟩ := except_bind_ok hm2
      rw [← Except.ok.inj hm2']
      exact hGet_hSet_ne h1 hK2 _
  have hmain : hGet h' K = hGet h2 K := by
    unfold axisBody at hw4
    by_cases hkr : pyStrip kind = "regular"
    · rw [if_pos hkr] at hw4
      obtain ⟨b, _, hw5⟩ := except_bind_ok hw4
      obtain ⟨b0, _, hw6⟩ := except_bind_ok hw5
      obtain ⟨b1, _, hw7⟩ := except_bind_ok hw6
      rcases b0 with q0 | s0
      · rcases b1 with q1 | s1
        · rw [← Except.ok.inj hw7]
          rw [hGet_hSet_ne _ hK5, hGet_hSet_ne _ hK4, hGet_hSet_ne _ hK3]
        · exact Except.noConfusion hw7
      · rcases b1 with q1 | s1 <;> exact Except.noConfusion hw7
    · rw [if_neg hkr] at hw4
      by_cases hki : pyStrip kind = "irregular"
      · rw [if_pos hki] at hw4
        obtain ⟨b, _, hw5⟩ := except_bind_ok hw4
        exact famFold_frame "PV" _ b _ _ _ hw5 K hKpv
      · rw [if_neg hki] at hw4
        by_cases hkl : pyStrip kind = "labeled"
        · rw [if_pos hkl] at hw4
          obtain ⟨b, _, hw5⟩ := except_bind_ok hw4
          exact famFold_frame "PS" _ b _ _ _ hw5 K hKps
        · rw [if_neg hkl] at hw4
          by_cases hkn : pyStrip kind = "named"
          · rw [if_pos hkn] at hw4
            obtain ⟨b, _, hw5⟩ := except_bind_ok hw4
            exact famFold_frame "N" _ b _ _ _ hw5 K hKn
          · rw [if_neg hkn] at hw4
            rw [← Except.ok.inj hw4]
  rw [hmain, hh2, hh1]

/-! ### The pre-loop header: lookups in `writeBase` -/

theorem writeBase_CDELT1 (d : NdArray) (info : WInfo) :
    hGet (writeBase d info) "CDELT1" = some (.num info.coeff1) := by
  unfold writeBase
  exact hGet_hSet_self _ _ _

theorem writeBase_CRVAL1 (d : NdArray) (info : WInfo) :
    hGet (writeBase d info) "CRVAL1" = some (.num info.coeff0) := by
  unfold writeBase
  rw [hGet_hSet_ne _ (show ("CRVAL1" : String) ≠ "CDELT1" by decide) _]
  exact hGet_hSet_self _ _ _

theorem writeBase_CRPIX1 (d : NdArray) (info : WInfo) :
    hGet (writeBase d info) "CRPIX1" = some (.num 1) := by
  unfold writeBase
  rw [hGet_hSet_ne _ (show ("CRPIX1" : String) ≠ "CDELT1" by decide) _,
    hGet_hSet_ne _ (show ("CRPIX1" : String) ≠ "CRVAL1" by decide) _]
  exact hGet_hSet_self _ _ _

theorem writeBase_CUNIT1 (d : NdArray) (info : WInfo) :
    hGet (writeBase d info) "CUNIT1" = some (.str "log10(Angstroms)") := by
  unfold writeBase
  rw [hGet_hSet_ne _ (show ("CUNIT1" : String) ≠ "CDELT1" by decide) _,
    hGet_hSet_ne _ (show ("CUNIT1" : String) ≠ "CRVAL1" by decide) _,
    hGet_hSet_ne _ (show ("CUNIT1" : String) ≠ "CRPIX1" by decide) _]
  exact hGet_hSet_self _ _ _

theorem writeBase_CNAME1 (d : NdArray) (info : WInfo) :
    hGet (writeBase d info) "CNAME1" = some (.str "loglam") := by
  unfold writeBase
  rw [hGet_hSet_ne _ (show ("CNAME1" : String) ≠ "CDELT1" by decide) _,
    hGet_hSet_ne _ (show ("CNAME1" : String) ≠ "CRVAL1" by decide) _,
    hGet_hSet_ne _ (show ("CNAME1" : String) ≠ "CRPIX1" by decide) _,
    hGet_hSet_ne _ (show ("CNAME1" : String) ≠ "CUNIT1" by decide) _]
  exact hGet_hSet_self _ _ _

theorem writeBase_BUNIT (d : NdArray) (info : WInfo) :
    hGet (writeBase d info) "BUNIT" = info.fluxunit.map FitsVal.str := by
  unfold writeBase
  rw [hGet_hSet_ne _ (show ("BUNIT" : String) ≠ "CDELT1" by decide) _,
    hGet_hSet_ne _ (show ("BUNIT" : String) ≠ "CRVAL1" by decide) _,
    hGet_hSet_ne _ (show ("BUNIT" : String) ≠ "CRPIX1" by decide) _,
    hGet_hSet_ne _ (show ("BUNIT" : String) ≠ "CUNIT1" by decide) _,
    hGet_hSet_ne _ (show ("BUNIT" : String) ≠ "CNAME1" by decide) _]
  rcases info.fluxunit with _ | u
  · rcases d.shape.getLast? with _ | w <;> rfl
  · exact hGet_hSet_self _ _ _

theorem writeBase_NAXIS1 {d : NdArray} (info : WInfo) {w : Nat}
    (hl : d.shape.getLast? = some w) :
    hGet (writeBase d info) "NAXIS1" = some (.num (w : ℚ)) := by
  unfold writeBase
  rw [hl]
  rw [hGet_hSet_ne _ (show ("NAXIS1" : String) ≠ "CDELT1" by decide) _,
    hGet_hSet_ne _ (show ("NAXIS1" : String) ≠ "CRVAL1" by decide) _,
    hGet_hSet_ne _ (show ("NAXIS1" : String) ≠ "CRPIX1" by decide) _,
    hGet_hSet_ne _ (show ("NAXIS1" : String) ≠ "CUNIT1" by decide) _,
    hGet_hSet_ne _ (show ("NAXIS1" : String) ≠ "CNAME1" by decide) _]
  rcases info.fluxunit with _ | u
  · rfl
  · rw [hGet_hSet_ne _ (show ("NAXIS1" : String) ≠ "BUNIT" by decide) _]
    rfl

/-! ### Inverting `write_ndArch` and framing the axis loop -/

theorem write_ok_inv {d : NdArray} {bs : List (List FitsVal)} {info : WInfo} {cont : FitsFile}
    (hw : write_ndArch d bs info = .ok cont) :
    ∃ hfin, (List.range (d.shape.length - 1)).reverse.foldlM
        (axisWrite d.shape (d.shape.length - 1) bs info) (writeBase d info) = .ok hfin ∧
      cont = ⟨info.filename, d, hfin⟩ := by
  unfold write_ndArch at hw
  obtain ⟨hfin, hf, hp⟩ := except_bind_ok hw
  exact ⟨hfin, hf, (Except.ok.inj hp).symm⟩

theorem axesFold_frame {shape : List Nat} {npars : Nat} {bs : List (List FitsVal)}
    {info : WInfo} {K : String} :
    ∀ (l : List Nat) (h h' : FitsHeader),
      l.foldlM (axisWrite shape npars bs info) h = .ok h' →
      (∀ i ∈ l, K ∉ axisAllKeys (natStr (npars + 1 - i)) (shape.getD i 0)) →
      hGet h' K = hGet h K := by
  intro l
  induction l with
  | nil =>
      intro h h' hf _
      rw [← Except.ok.inj hf]
  | cons i t ih =>
      intro h h' hf hK
      obtain ⟨hmid, h1, h2⟩ := except_bind_ok hf
      rw [ih hmid h' h2 (fun j hj => hK j (by simp [hj]))]
      exact axisWrite_preserves h1 (hK i (by simp))

theorem natStr_ne_one {a : Nat} (ha : 2 ≤ a) : (natStr a).data ≠ ['1'] := by
  intro e
  have h1 : a = 1 := digitsRep_inj a 1 e
  omega

theorem not_mem_axisAllKeys_foreign {K : String} {a L : Nat} (ha : 2 ≤ a)
    (hK : axChars K = [] ∨ axChars K = ['1']) :
    K ∉ axisAllKeys (natStr a) L := by
  intro hm
  have hx := axChars_of_mem (natStr_isDigit a) (natStr_ne_nil a) hm
  rcases hK with h | h
  · rw [h] at hx
    exact natStr_ne_nil a hx.symm
  · rw [h] at hx
    exact natStr_ne_one ha hx.symm

theorem writeHeader_foreign {d : NdArray} {bs : List (List FitsVal)} {info : WInfo}
    {cont : FitsFile} (hw : write_ndArch d bs info = .ok cont)
    {K : String} (hK : axChars K = [] ∨ axChars K = ['1']) :
    hGet cont.header K = hGet (writeBase d info) K := by
  obtain ⟨hfin, hf, hc⟩ := write_ok_inv hw
  rw [hc]
  refine axesFold_frame _ _ _ hf (fun i hi => ?_)
  have hlt : i < d.shape.length - 1 := by
    simpa [List.mem_reverse, List.mem_range] using hi
  exact not_mem_axisAllKeys_foreign (by omega) hK

/-! ### Claims C7 and C8 -/

instance : Inhabited FitsFile := ⟨⟨"", ⟨[], []⟩, []⟩⟩

/-- The written container of a write that is known to succeed (used only
to name concrete witnesses). -/
def contOf (e : Except RmErr FitsFile) : FitsFile :=
  match e with
  | .ok c => c
  | .error _ => default

theorem axisBody_index (bs : List (List FitsVal)) (ax : String) (L ipar : Nat)
    (h2 : FitsHeader) : axisBody bs ax L ipar "index" h2 = .ok h2 := by
  unfold axisBody
  rw [if_neg (show ¬pyStrip "index" = "regular" by decide),
    if_neg (show ¬pyStrip "index" = "irregular" by decide),
    if_neg (show ¬pyStrip "index" = "labeled" by decide),
    if_neg (show ¬pyStrip "index" = "named" by decide)]
  rfl

theorem axisWrite_index {shape : List Nat} {npars : Nat} {bs : List (List FitsVal)}
    {info : WInfo} (hn : info.par_names = none) (hu : info.par_units = none)
    {i : Nat} (hk : info.par_axistype.get? i = some "index") (h : FitsHeader) :
    axisWrite shape npars bs info h i = .ok h := by
  unfold axisWrite setNameW setUnitW
  rw [hn, hu]
  have hpg : pyGet info.par_axistype i = .ok "index" := by
    unfold pyGet
    rw [hk]
  show (do
    let kind ← pyGet info.par_axistype i
    axisBody bs (natStr (npars + 1 - i)) (shape.getD i 0) i kind h) = .ok h
  rw [hpg]
  show axisBody bs (natStr (npars + 1 - i)) (shape.getD i 0) i "index" h = .ok h
  exact axisBody_index _ _ _ _ _

theorem axesFold_index (shape : List Nat) (npars : Nat) (bs : List (List FitsVal))
    {info : WInfo} (hn : info.par_names = none) (hu : info.par_units = none) :
    ∀ (l : List Nat) (h : FitsHeader),
      (∀ i ∈ l, info.par_axistype.get? i = some "index") →
      l.foldlM (axisWrite shape npars bs info) h = .ok h := by
  intro l
  induction l with
  | nil => intro h _; rfl
  | cons i t ih =>
      intro h hk
      show (axisWrite shape npars bs info h i >>= fun h2 =>
        t.foldlM (axisWrite shape npars bs info) h2) = .ok h
      rw [axisWrite_index hn hu (hk i (by simp)) h]
      show t.foldlM (axisWrite shape npars bs info) h = .ok h
      exact ih h (fun j hj => hk j (by simp [hj]))

/-- Claim C7 as amended: `write_ndArch` performs no baseline-length
validation whatsoever (there is no `AxisShapeMismatchError` anywhere in
the source): with every axis kind `'index'` (and no optional name/unit
lists) the write succeeds for *every* `baselines` argument, whatever its
length or the lengths of its entries — mismatched baselines are silently
ignored.  (A too-short baseline on a regular/irregular/labeled/named
axis instead aborts with a Python `IndexError` while the header is being
built, before any file is written.) -/
theorem C7_no_validation_amended (d : NdArray) (bs : List (List FitsVal)) (info : WInfo)
    (hn : info.par_names = none) (hu : info.par_units = none)
    (hk : ∀ i < d.shape.length - 1, info.par_axistype.get? i = some "index") :
    write_ndArch d bs info = .ok ⟨info.filename, d, writeBase d info⟩ := by
  have hf := axesFold_index d.shape (d.shape.length - 1) bs hn hu
    ((List.range (d.shape.length - 1)).reverse)
    (writeBase d info)
    (fun i hi => hk i (by simpa [List.mem_reverse, List.mem_range] using hi))
  have he : write_ndArch d bs info =
      ((List.range (d.shape.length - 1)).reverse.foldlM
        (axisWrite d.shape (d.shape.length - 1) bs info) (writeBase d info)) >>=
      fun hfin => pure ⟨info.filename, d, hfin⟩ := rfl
  rw [he, hf]
  rfl

/-- Shape `(2, 3)` data with a single length-1 baseline for its length-2
parameter axis: the lengths disagree, and `len(baselines) = 1` matches
`rank - 1` but the baseline itself is wrong. -/
def wC7data : NdArray := ⟨[2, 3], []⟩

def wC7bs : List (List FitsVal) := [[.num 99]]

def wC7info : WInfo := ⟨"ndArch-T-v0.fits", 0, 1, none, none, none, ["index"]⟩

/-- Counterexample to claim C7 as stated: a baseline whose length (1)
disagrees with the corresponding axis length (2) is accepted without any
error — `write_ndArch` returns a container instead of failing with
`AxisShapeMismatchError` before writing. -/
theorem C7_counterexample :
    (wC7bs.getD 0 []).length ≠ wC7data.shape.getD 0 0 ∧
    write_ndArch wC7data wC7bs wC7info =
      .ok (contOf (write_ndArch wC7data wC7bs wC7info)) :=
  ⟨by decide, rfl⟩

theorem C7_no_validation_amended_witness :
    write_ndArch wC7data wC7bs wC7info =
      .ok ⟨wC7info.filename, wC7data, writeBase wC7data wC7info⟩ :=
  C7_no_validation_amended wC7data wC7bs wC7info rfl rfl (by decide)

/-- Claim C8 as amended: `write_ndArch` emits `BUNIT` iff the `fluxunit`
*key* is present in `infodict` — whatever its value, including the empty
string — and the emitted card carries exactly that value. -/
theorem C8_bunit_amended (d : NdArray) (bs : List (List FitsVal)) (info : WInfo)
    (cont : FitsFile) (hw : write_ndArch d bs info = .ok cont) :
    (hContains cont.header "BUNIT" = true ↔ info.fluxunit ≠ none) ∧
    hGet cont.header "BUNIT" = info.fluxunit.map FitsVal.str := by
  have h := writeHeader_foreign hw
    (show axChars "BUNIT" = [] ∨ axChars "BUNIT" = ['1'] from Or.inl rfl)
  rw [hContains, h, writeBase_BUNIT]
  constructor
  · cases info.fluxunit <;> simp
  · rfl

def wC8data : NdArray := ⟨[3], []⟩

def wC8info : WInfo := ⟨"ndArch-T-v0.fits", 0, 1, some "erg", none, none, []⟩

theorem C8_bunit_amended_witness :
    (hContains (contOf (write_ndArch wC8data [] wC8info)).header "BUNIT" = true ↔
      wC8info.fluxunit ≠ none) ∧
    hGet (contOf (write_ndArch wC8data [] wC8info)).header "BUNIT" =
      wC8info.fluxunit.map FitsVal.str :=
  C8_bunit_amended wC8data [] wC8info _ rfl

def wC8einfo : WInfo := ⟨"ndArch-T-v0.fits", 0, 1, some "", none, none, []⟩

/-- Counterexample to claim C8 as stated: an *empty* flux unit still
produces a `BUNIT` card (with empty value), because the source tests key
presence (`'fluxunit' in infodict`), not non-emptiness. -/
theorem C8_counterexample :
    wC8einfo.fluxunit = some "" ∧
    write_ndArch wC8data [] wC8einfo = .ok (contOf (write_ndArch wC8data [] wC8einfo)) ∧
    hGet (contOf (write_ndArch wC8data [] wC8einfo)).header "BUNIT" = some (.str "") :=
  ⟨rfl, rfl, rfl⟩

/-! ### Claim C10: the wavelength axis name/unit cards -/

theorem mapM_congr_mem {α β : Type} {l : List α} {f g : α → Except RmErr β}
    (h : ∀ a ∈ l, f a = g a) : l.mapM f = l.mapM g := by
  induction l with
  | nil => rfl
  | cons x t ih =>
      rw [List.mapM_cons, List.mapM_cons, h x (by simp), ih (fun a ha => h a (by simp [ha]))]

theorem axisDecode_congr {h h' : FitsHeader} {ax : String} {L : Nat}
    (hq : ∀ K ∈ axisAllKeys ax L, hGet h' K = hGet h K) :
    axisDecode h' ax L = axisDecode h ax L := by
  have e1 : hGet h' ("CNAME" ++ ax) = hGet h ("CNAME" ++ ax) :=
    hq _ (mem_axisAllKeys_cname ax L)
  have e2 : hGet h' ("CUNIT" ++ ax) = hGet h ("CUNIT" ++ ax) :=
    hq _ (mem_axisAllKeys_cunit ax L)
  have e3 : hGet h' ("CRPIX" ++ ax) = hGet h ("CRPIX" ++ ax) :=
    hq _ (mem_axisAllKeys_crpix ax L)
  have e4 : hGet h' ("CRVAL" ++ ax) = hGet h ("CRVAL" ++ ax) :=
    hq _ (mem_axisAllKeys_crval ax L)
  have e5 : hGet h' ("CDELT" ++ ax) = hGet h ("CDELT" ++ ax) :=
    hq _ (mem_axisAllKeys_cdelt ax L)
  have epv : ∀ K ∈ famKeys "PV" ax L, hGet h' K = hGet h K := by
    intro K hK
    simp only [famKeys, List.mem_map, List.mem_range] at hK
    obtain ⟨j, hj, rfl⟩ := hK
    exact hq _ (mem_axisAllKeys_pv ax hj)
  have eps : ∀ K ∈ famKeys "PS" ax L, hGet h' K = hGet h K := by
    intro K hK
    simp only [famKeys, List.mem_map, List.mem_range] at hK
    obtain ⟨j, hj, rfl⟩ := hK
    exact hq _ (mem_axisAllKeys_ps ax hj)
  have en : ∀ K ∈ famKeys "N" ax L, hGet h' K = hGet h K := by
    intro K hK
    simp only [famKeys, List.mem_map, List.mem_range] at hK
    obtain ⟨j, hj, rfl⟩ := hK
    exact hq _ (mem_axisAllKeys_n ax hj)
  have c3 : hContains h' ("CRPIX" ++ ax) = hContains h ("CRPIX" ++ ax) := by
    rw [hContains, hContains, e3]
  have c4 : hContains h' ("CRVAL" ++ ax) = hContains h ("CRVAL" ++ ax) := by
    rw [hContains, hContains, e4]
  have c5 : hContains h' ("CDELT" ++ ax) = hContains h ("CDELT" ++ ax) := by
    rw [hContains, hContains, e5]
  have a1 : (famKeys "PV" ax L).all (hContains h') = (famKeys "PV" ax L).all (hContains h) :=
    all_congr_mem (fun K hK => by rw [hContains, hContains, epv K hK])
  have a2 : (famKeys "PS" ax L).all (hContains h') = (famKeys "PS" ax L).all (hContains h) :=
    all_congr_mem (fun K hK => by rw [hContains, hContains, eps K hK])
  have a3 : (famKeys "N" ax L).all (hContains h') = (famKeys "N" ax L).all (hContains h) :=
    all_congr_mem (fun K hK => by rw [hContains, hContains, en K hK])
  have m1 : (famKeys "PV" ax L).map (fun key => (hGet h' key).getD (.str "")) =
      (famKeys "PV" ax L).map (fun key => (hGet h key).getD (.str "")) :=
    List.map_congr_left (fun K hK => by rw [epv K hK])
  have m2 : (famKeys "PS" ax L).map (fun key => (hGet h' key).getD (.str "")) =
      (famKeys "PS" ax L).map (fun key => (hGet h key).getD (.str "")) :=
    List.map_congr_left (fun K hK => by rw [eps K hK])
  have m3 : (famKeys "N" ax L).map (fun key => (hGet h' key).getD (.str "")) =
      (famKeys "N" ax L).map (fun key => (hGet h key).getD (.str "")) :=
    List.map_congr_left (fun K hK => by rw [en K hK])
  unfold axisDecode
  rw [e1, e2, e3, e4, e5, c3, c4, c5, a1, a2, a3, m1, m2, m3]

/-- Claim C10: `write_ndArch` always stamps the wavelength axis with
`CNAME1 = 'loglam'` and `CUNIT1 = 'log10(Angstroms)'`, yet `read_ndArch`
never consults either card — its axis loop reads `CNAME{ax}`/`CUNIT{ax}`
only for `ax ≥ 2` — so the decode result is completely invariant under
arbitrary rewrites of `CNAME1`/`CUNIT1`, and the wavelength axis's name
and unit are not recovered into the decoded metadata. -/
theorem C10_wavelength_name_not_recovered (c : FitsFile) (v w' : FitsVal)
    (d : NdArray) (bs : List (List FitsVal)) (info : WInfo) (cont : FitsFile)
    (hw : write_ndArch d bs info = .ok cont) :
    read_ndArch { c with header := hSet (hSet c.header "CNAME1" v) "CUNIT1" w' } =
      read_ndArch c ∧
    hGet cont.header "CNAME1" = some (.str "loglam") ∧
    hGet cont.header "CUNIT1" = some (.str "log10(Angstroms)") := by
  refine ⟨?_, ?_, ?_⟩
  · set c' : FitsFile := { c with header := hSet (hSet c.header "CNAME1" v) "CUNIT1" w' }
      with hc'
    have hkeep : ∀ K : String, K ≠ "CNAME1" → K ≠ "CUNIT1" →
        hGet c'.header K = hGet c.header K := by
      intro K h1 h2
      rw [hc']
      show hGet (hSet (hSet c.header "CNAME1" v) "CUNIT1" w') K = hGet c.header K
      rw [hGet_hSet_ne _ h2, hGet_hSet_ne _ h1]
    by_cases hparts : 2 ≤ (splitSep '-' (pyRoot c.fname.data)).length
    · rcases hsh : c.data.shape.isEmpty with _ | _
      · rcases h0 : hGet c.header "CRVAL1" with _ | v0
        · rw [read_noCRVAL1 c hparts h0,
            read_noCRVAL1 c' hparts ((hkeep "CRVAL1" (by decide) (by decide)).trans h0)]
        · have h0' : hGet c'.header "CRVAL1" = some v0 :=
            (hkeep "CRVAL1" (by decide) (by decide)).trans h0
          rcases h1 : hGet c.header "CDELT1" with _ | v1
          · rw [read_noCDELT1 c hparts hsh h0 h1,
              read_noCDELT1 c' hparts hsh h0'
                ((hkeep "CDELT1" (by decide) (by decide)).trans h1)]
          · have h1' : hGet c'.header "CDELT1" = some v1 :=
              (hkeep "CDELT1" (by decide) (by decide)).trans h1
            rcases h2 : hGet c.header "NAXIS1" with _ | vn
            · rw [read_noNAXIS1 c hparts hsh h0 h1 h2,
                read_noNAXIS1 c' hparts hsh h0' h1'
                  ((hkeep "NAXIS1" (by decide) (by decide)).trans h2)]
            · have h2' : hGet c'.header "NAXIS1" = some vn :=
                (hkeep "NAXIS1" (by decide) (by decide)).trans h2
              have hmeq : (List.range (c.data.shape.length - 1)).mapM (fun ipar =>
                  axisDecode c'.header (natStr (c.data.shape.length - 1 + 1 - ipar))
                    (c.data.shape.getD ipar 0)) =
                  (List.range (c.data.shape.length - 1)).mapM (fun ipar =>
                  axisDecode c.header (natStr (c.data.shape.length - 1 + 1 - ipar))
                    (c.data.shape.getD ipar 0)) := by
                refine mapM_congr_mem (fun i hi => ?_)
                have hilt : i < c.data.shape.length - 1 := List.mem_range.mp hi
                refine axisDecode_congr (fun K hK => ?_)
                have haxd := axChars_of_mem
                  (natStr_isDigit (c.data.shape.length - 1 + 1 - i))
                  (natStr_ne_nil _) hK
                refine hkeep K ?_ ?_ <;> intro he <;> rw [he] at haxd
                · exact natStr_ne_one
                    (show 2 ≤ c.data.shape.length - 1 + 1 - i by omega)
                    (haxd.symm.trans (show axChars "CNAME1" = ['1'] from rfl))
                · exact natStr_ne_one
                    (show 2 ≤ c.data.shape.length - 1 + 1 - i by omega)
                    (haxd.symm.trans (show axChars "CUNIT1" = ['1'] from rfl))
              rcases hm : (List.range (c.data.shape.length - 1)).mapM (fun ipar =>
                  axisDecode c.header (natStr (c.data.shape.length - 1 + 1 - ipar))
                    (c.data.shape.getD ipar 0)) with e | axres
              · rw [read_axes_err c hparts hsh h0 h1 h2 hm,
                  read_axes_err c' hparts hsh h0' h1' h2' (hmeq.trans hm)]
              · rw [read_ok_of c hparts hsh h0 h1 h2 hm,
                  read_ok_of c' hparts hsh h0' h1' h2' (hmeq.trans hm)]
                rw [hkeep "BUNIT" (by decide) (by decide)]
      · rw [read_emptyshape c hparts hsh, read_emptyshape c' hparts hsh]
    · rw [read_badname c hparts, read_badname c' hparts]
  · rw [writeHeader_foreign hw
      (show axChars "CNAME1" = [] ∨ axChars "CNAME1" = ['1'] from Or.inr rfl)]
    exact writeBase_CNAME1 d info
  · rw [writeHeader_foreign hw
      (show axChars "CUNIT1" = [] ∨ axChars "CUNIT1" = ['1'] from Or.inr rfl)]
    exact writeBase_CUNIT1 d info

def wC10file : FitsFile :=
  ⟨"ndArch-T-v0.fits", ⟨[3], [1, 2, 3]⟩,
    [("CRVAL1", .num (7/2)), ("CDELT1", .num (1/10000)), ("NAXIS1", .num 3),
     ("CNAME1", .str "loglam"), ("CUNIT1", .str "log10(Angstroms)")]⟩

def wC10data : NdArray := ⟨[2, 3], []⟩

def wC10info : WInfo := ⟨"ndArch-T-v0.fits", 0, 1, none, none, none, ["index"]⟩

theorem C10_wavelength_name_not_recovered_witness :
    read_ndArch { wC10file with
      header := hSet (hSet wC10file.header "CNAME1" (.str "mangled")) "CUNIT1" (.str "x") } =
      read_ndArch wC10file ∧
    hGet (contOf (write_ndArch wC10data [[.num 9]] wC10info)).header "CNAME1" =
      some (.str "loglam") ∧
    hGet (contOf (write_ndArch wC10data [[.num 9]] wC10info)).header "CUNIT1" =
      some (.str "log10(Angstroms)") :=
  C10_wavelength_name_not_recovered wC10file (.str "mangled") (.str "x") wC10data
    [[.num 9]] wC10info _ rfl

/-! ### Claim C1: the encode/decode round trip -/

theorem ok_bind {α β : Type} (a : α) (f : α → Except RmErr β) :
    (Except.ok a >>= f : Except RmErr β) = f a := rfl

theorem get?_of_lt {α : Type} {l : List α} {i : Nat} (h : i < l.length) (dflt : α) :
    l.get? i = some (l.getD i dflt) := by
  rw [List.getD_eq_getElem l dflt h, List.get?_eq_getElem?, List.getElem?_eq_getElem h]

theorem key_ne_of_at {s t : String} (k : Nat) {a b : Char}
    (ha : s.data.get? k = some a) (hb : t.data.get? k = some b) (hab : a ≠ b) : s ≠ t := by
  apply key_ne_at k
  rw [ha, hb]
  exact fun e => hab (Option.some.inj e)

theorem mem_axisAllKeys_pv1 (ax : String) {L : Nat} (hL : 0 < L) :
    famKey "PV" ax 1 ∈ axisAllKeys ax L := by
  have h := mem_axisAllKeys_pv ax hL
  simpa using h

theorem mem_axisAllKeys_ps1 (ax : String) {L : Nat} (hL : 0 < L) :
    famKey "PS" ax 1 ∈ axisAllKeys ax L := by
  have h := mem_axisAllKeys_ps ax hL
  simpa using h

theorem mem_axisAllKeys_n1 (ax : String) {L : Nat} (hL : 0 < L) :
    famKey "N" ax 1 ∈ axisAllKeys ax L := by
  have h := mem_axisAllKeys_n ax hL
  simpa using h

/-- No key whose first digit run is a numeral other than `'1'` is
present in the pre-loop header: `writeBase` only writes `NAXIS`,
`NAXIS1`, `BUNIT` and the five wavelength-axis (`…1`) cards. -/
theorem writeBase_none (d : NdArray) (info : WInfo) {K : String}
    (h1 : axChars K ≠ []) (h2 : axChars K ≠ ['1']) :
    hGet (writeBase d info) K = none := by
  have k1 : ("CDELT1" : String) ≠ K := fun e => h2 (by rw [← e]; decide)
  have k2 : ("CRVAL1" : String) ≠ K := fun e => h2 (by rw [← e]; decide)
  have k3 : ("CRPIX1" : String) ≠ K := fun e => h2 (by rw [← e]; decide)
  have k4 : ("CUNIT1" : String) ≠ K := fun e => h2 (by rw [← e]; decide)
  have k5 : ("CNAME1" : String) ≠ K := fun e => h2 (by rw [← e]; decide)
  have k6 : ("BUNIT" : String) ≠ K := fun e => h1 (by rw [← e]; decide)
  have k7 : ("NAXIS" : String) ≠ K := fun e => h1 (by rw [← e]; decide)
  have k8 : ("NAXIS1" : String) ≠ K := fun e => h2 (by rw [← e]; decide)
  unfold writeBase
  rw [hGet_hSet_ne _ (Ne.symm k1) _, hGet_hSet_ne _ (Ne.symm k2) _,
    hGet_hSet_ne _ (Ne.symm k3) _, hGet_hSet_ne _ (Ne.symm k4) _,
    hGet_hSet_ne _ (Ne.symm k5) _]
  rcases info.fluxunit with _ | u
  · rcases d.shape.getLast? with _ | w
    · simp [hGet_cons, k7]
    · simp [hGet_cons, k7, k8]
  · rw [hGet_hSet_ne _ (Ne.symm k6) _]
    rcases d.shape.getLast? with _ | w
    · simp [hGet_cons, k7]
    · simp [hGet_cons, k7, k8]

/-- Arithmetic-progression check for entry `k` of a regular-axis
baseline: numeric first two entries, and entry `k` equal to
`b[0] + k*(b[1] - b[0])` (what `read_ndArch` will reconstruct from
`CRPIX = 1`, `CRVAL = b[0]`, `CDELT = b[1] - b[0]`). -/
def apOK (b : List FitsVal) (k : Nat) : Bool :=
  match b.get? 0, b.get? 1, b.get? k with
  | some (.num x), some (.num y), some (.num z) => decide (z = x + (k : ℚ) * (y - x))
  | _, _, _ => false

/-- Index-axis check for entry `k`: the canonical one-based value `k+1`
(what `read_ndArch` reconstructs for an index axis, which
`write_ndArch` does not record at all). -/
def idxOK (b : List FitsVal) (k : Nat) : Bool :=
  match b.get? k with
  | some (.num z) => decide (z = (k : ℚ) + 1)
  | _ => false

theorem apOK_inv {b : List FitsVal} {k : Nat} (h : apOK b k = true) :
    ∃ x y, b.get? 0 = some (.num x) ∧ b.get? 1 = some (.num y) ∧
      b.get? k = some (.num (x + (k : ℚ) * (y - x))) := by
  unfold apOK at h
  split at h
  · rename_i x y z h0 h1 hk
    exact ⟨x, y, h0, h1, by rw [hk, of_decide_eq_true h]⟩
  · exact absurd h (by simp)

theorem idxOK_inv {b : List FitsVal} {k : Nat} (h : idxOK b k = true) :
    b.get? k = some (.num ((k : ℚ) + 1)) := by
  unfold idxOK at h
  split at h
  · rename_i z hk
    rw [hk, of_decide_eq_true h]
  · exact absurd h (by simp)

/-- Validity of an encoder input for the round trip, as amended: the
data array is nonempty and its destination filename yields at least two
`'-'`-delimited tokens once `'.fits'` is stripped; the optional
name/unit lists, the kind list and the baselines list all cover the
parameter axes; every parameter axis has positive length and a baseline
of exactly that length; and each axis kind is one of the five supported
values, with a `regular` baseline an arithmetic progression read off
its first two (numeric) entries over at least two samples, and an
`index` baseline the canonical one-based index values. -/
def ValidInput (d : NdArray) (bs : List (List FitsVal)) (info : WInfo) : Prop :=
  d.shape ≠ [] ∧
  2 ≤ (splitSep '-' (pyRoot info.filename.data)).length ∧
  (info.par_names.getD (List.replicate (d.shape.length - 1) "")).length =
    d.shape.length - 1 ∧
  (info.par_units.getD (List.replicate (d.shape.length - 1) "")).length =
    d.shape.length - 1 ∧
  info.par_axistype.length = d.shape.length - 1 ∧
  bs.length = d.shape.length - 1 ∧
  ∀ i < d.shape.length - 1,
    0 < d.shape.getD i 0 ∧
    (bs.getD i []).length = d.shape.getD i 0 ∧
    (info.par_axistype.getD i "" = "regular" ∧ 2 ≤ d.shape.getD i 0 ∧
        (∀ k < d.shape.getD i 0, apOK (bs.getD i []) k = true) ∨
      info.par_axistype.getD i "" = "irregular" ∨
      info.par_axistype.getD i "" = "labeled" ∨
      info.par_axistype.getD i "" = "named" ∨
      info.par_axistype.getD i "" = "index" ∧
        ∀ k < d.shape.getD i 0, idxOK (bs.getD i []) k = true)

theorem setNameW_ok {info : WInfo} {i : Nat}
    (hn : ∀ ns, info.par_names = some ns → i < ns.length) (ax : String) (h : FitsHeader) :
    ∃ h1, setNameW info ax i h = .ok h1 ∧
      ∀ K, K ≠ "CNAME" ++ ax → hGet h1 K = hGet h K := by
  unfold setNameW
  rcases hns : info.par_names with _ | ns
  · exact ⟨h, rfl, fun K _ => rfl⟩
  · have hi := hn ns hns
    have hpg : pyGet ns i = .ok (ns.getD i "") := by
      unfold pyGet
      rw [get?_of_lt hi ""]
    refine ⟨hSet h ("CNAME" ++ ax) (.str (ns.getD i "")), ?_, ?_⟩
    · show (pyGet ns i >>= fun v => pure (hSet h ("CNAME" ++ ax) (FitsVal.str v))) = _
      rw [hpg]
      rfl
    · intro K hK
      exact hGet_hSet_ne h hK _

theorem setUnitW_ok {info : WInfo} {i : Nat}
    (hu : ∀ us, info.par_units = some us → i < us.length) (ax : String) (h : FitsHeader) :
    ∃ h1, setUnitW info ax i h = .ok h1 ∧
      ∀ K, K ≠ "CUNIT" ++ ax → hGet h1 K = hGet h K := by
  unfold setUnitW
  rcases hus : info.par_units with _ | us
  · exact ⟨h, rfl, fun K _ => rfl⟩
  · have hi := hu us hus
    have hpg : pyGet us i = .ok (us.getD i "") := by
      unfold pyGet
      rw [get?_of_lt hi ""]
    refine ⟨hSet h ("CUNIT" ++ ax) (.str (us.getD i "")), ?_, ?_⟩
    · show (pyGet us i >>= fun v => pure (hSet h ("CUNIT" ++ ax) (FitsVal.str v))) = _
      rw [hpg]
      rfl
    · intro K hK
      exact hGet_hSet_ne h hK _

/-- Evaluating the `PV`/`PS`/`N` keyword-family emission loop: it
succeeds when the baseline covers the axis, stores exactly the baseline
entries under `famKey fam ax (j+1)`, and leaves every other key alone. -/
theorem famFold_spec (fam ax : String) (hax : ∀ c ∈ ax.data, c.isDigit = true)
    {b : List FitsVal} :
    ∀ (L : Nat), L ≤ b.length → ∀ (h : FitsHeader),
      ∃ h', (List.range L).foldlM (fun hh j => do
          let v ← pyGet b j
          pure (hSet hh (famKey fam ax (j + 1)) v)) h = .ok h' ∧
        (∀ j < L, hGet h' (famKey fam ax (j + 1)) = b.get? j) ∧
        (∀ K, (∀ j < L, K ≠ famKey fam ax (j + 1)) → hGet h' K = hGet h K) := by
  intro L
  induction L with
  | zero =>
      intro _ h
      exact ⟨h, rfl, fun j hj => absurd hj (by omega), fun K _ => rfl⟩
  | succ L ih =>
      intro hlen h
      obtain ⟨h1, hf1, hv1, hfr1⟩ := ih (by omega) h
      have hbL : b.get? L = some (b.getD L (.str "")) := get?_of_lt (by omega) _
      have hpg : pyGet b L = .ok (b.getD L (.str "")) := by
        unfold pyGet
        rw [hbL]
      refine ⟨hSet h1 (famKey fam ax (L + 1)) (b.getD L (.str "")), ?_, ?_, ?_⟩
      · rw [List.range_succ, List.foldlM_append, hf1, ok_bind]
        simp only [List.foldlM_cons, List.foldlM_nil, hpg, ok_bind]
        rfl
      · intro j hj
        by_cases hjL : j = L
        · subst hjL
          rw [hGet_hSet_self]
          exact hbL.symm
        · rw [hGet_hSet_ne h1 (famKey_same_ne hax (by omega)) _]
          exact hv1 j (by omega)
      · intro K hK
        rw [hGet_hSet_ne h1 (hK L (by omega)) _]
        exact hfr1 K (fun j hj => hK j (by omega))

theorem axisBody_regular_eval {bs : List (List FitsVal)} {i : Nat} {b : List FitsVal}
    (hb : bs.get? i = some b) {x y : ℚ}
    (hb0 : b.get? 0 = some (.num x)) (hb1 : b.get? 1 = some (.num y))
    (ax : String) (L : Nat) (h2 : FitsHeader) :
    axisBody bs ax L i "regular" h2 =
      .ok (hSet (hSet (hSet h2 ("CRPIX" ++ ax) (.num 1)) ("CRVAL" ++ ax) (.num x))
        ("CDELT" ++ ax) (.num (y - x))) := by
  have hpg : pyGet bs i = .ok b := by
    unfold pyGet
    rw [hb]
  have hp0 : pyGet b 0 = .ok (FitsVal.num x) := by
    unfold pyGet
    rw [hb0]
  have hp1 : pyGet b 1 = .ok (FitsVal.num y) := by
    unfold pyGet
    rw [hb1]
  unfold axisBody
  rw [if_pos (show pyStrip "regular" = "regular" by decide)]
  simp only [hpg, ok_bind, hp0, hp1]
  rfl

theorem axisBody_irregular_eval {bs : List (List FitsVal)} {i : Nat} {b : List FitsVal}
    (hb : bs.get? i = some b) {ax : String} (hax : ∀ c ∈ ax.data, c.isDigit = true)
    {L : Nat} (hlen : L ≤ b.length) (h2 : FitsHeader) :
    ∃ h', axisBody bs ax L i "irregular" h2 = .ok h' ∧
      (∀ j < L, hGet h' (famKey "PV" ax (j + 1)) = b.get? j) ∧
      (∀ K, (∀ j < L, K ≠ famKey "PV" ax (j + 1)) → hGet h' K = hGet h2 K) := by
  obtain ⟨h', hf, hv, hfr⟩ := famFold_spec "PV" ax hax L hlen h2
  refine ⟨h', ?_, hv, hfr⟩
  have hpg : pyGet bs i = .ok b := by
    unfold pyGet
    rw [hb]
  unfold axisBody
  rw [if_neg (show ¬pyStrip "irregular" = "regular" by decide),
    if_pos (show pyStrip "irregular" = "irregular" by decide)]
  simp only [hpg, ok_bind]
  exact hf

theorem axisBody_labeled_eval {bs : List (List FitsVal)} {i : Nat} {b : List FitsVal}
    (hb : bs.get? i = some b) {ax : String} (hax : ∀ c ∈ ax.data, c.isDigit = true)
    {L : Nat} (hlen : L ≤ b.length) (h2 : FitsHeader) :
    ∃ h', axisBody bs ax L i "labeled" h2 = .ok h' ∧
      (∀ j < L, hGet h' (famKey "PS" ax (j + 1)) = b.get? j) ∧
      (∀ K, (∀ j < L, K ≠ famKey "PS" ax (j + 1)) → hGet h' K = hGet h2 K) := by
  obtain ⟨h', hf, hv, hfr⟩ := famFold_spec "PS" ax hax L hlen h2
  refine ⟨h', ?_, hv, hfr⟩
  have hpg : pyGet bs i = .ok b := by
    unfold pyGet
    rw [hb]
  unfold axisBody
  rw [if_neg (show ¬pyStrip "labeled" = "regular" by decide),
    if_neg (show ¬pyStrip "labeled" = "irregular" by decide),
    if_pos (show pyStrip "labeled" = "labeled" by decide)]
  simp only [hpg, ok_bind]
  exact hf

theorem axisBody_named_eval {bs : List (List FitsVal)} {i : Nat} {b : List FitsVal}
    (hb : bs.get? i = some b) {ax : String} (hax : ∀ c ∈ ax.data, c.isDigit = true)
    {L : Nat} (hlen : L ≤ b.length) (h2 : FitsHeader) :
    ∃ h', axisBody bs ax L i "named" h2 = .ok h' ∧
      (∀ j < L, hGet h' (famKey "N" ax (j + 1)) = b.get? j) ∧
      (∀ K, (∀ j < L, K ≠ famKey "N" ax (j + 1)) → hGet h' K = hGet h2 K) := by
  obtain ⟨h', hf, hv, hfr⟩ := famFold_spec "N" ax hax L hlen h2
  refine ⟨h', ?_, hv, hfr⟩
  have hpg : pyGet bs i = .ok b := by
    unfold pyGet
    rw [hb]
  unfold axisBody
  rw [if_neg (show ¬pyStrip "named" = "regular" by decide),
    if_neg (show ¬pyStrip "named" = "irregular" by decide),
    if_neg (show ¬pyStrip "named" = "labeled" by decide),
    if_pos (show pyStrip "named" = "named" by decide)]
  simp only [hpg, ok_bind]
  exact hf

theorem axisWrite_eq (shape : List Nat) (npars : Nat) (bs : List (List FitsVal))
    (info : WInfo) (h : FitsHeader) (i : Nat) :
    axisWrite shape npars bs info h i =
      setNameW info (natStr (npars + 1 - i)) i h >>= fun h1 =>
      setUnitW info (natStr (npars + 1 - i)) i h1 >>= fun h2 =>
      pyGet info.par_axistype i >>= fun kind =>
      axisBody bs (natStr (npars + 1 - i)) (shape.getD i 0) i kind h2 := rfl

/-- What the axis loop has recorded for one parameter axis once it is
done, relative to the header `h0` the loop started from: the kind's own
keyword family holds exactly the baseline entries, and the keys that
would make `read_ndArch` classify the axis differently (`CRPIX{ax}` and
the first key of each earlier-priority family) are left untouched. -/
def axKindFacts (H h0 : FitsHeader) (ax : String) (L : Nat) (b : List FitsVal)
    (kind : String) : Prop :=
  (kind = "regular" → ∃ x y, b.get? 0 = some (.num x) ∧ b.get? 1 = some (.num y) ∧
    hGet H ("CRPIX" ++ ax) = some (.num 1) ∧
    hGet H ("CRVAL" ++ ax) = some (.num x) ∧
    hGet H ("CDELT" ++ ax) = some (.num (y - x))) ∧
  (kind = "irregular" →
    (∀ j < L, hGet H (famKey "PV" ax (j + 1)) = b.get? j) ∧
    hGet H ("CRPIX" ++ ax) = hGet h0 ("CRPIX" ++ ax)) ∧
  (kind = "labeled" →
    (∀ j < L, hGet H (famKey "PS" ax (j + 1)) = b.get? j) ∧
    hGet H ("CRPIX" ++ ax) = hGet h0 ("CRPIX" ++ ax) ∧
    hGet H (famKey "PV" ax 1) = hGet h0 (famKey "PV" ax 1)) ∧
  (kind = "named" →
    (∀ j < L, hGet H (famKey "N" ax (j + 1)) = b.get? j) ∧
    hGet H ("CRPIX" ++ ax) = hGet h0 ("CRPIX" ++ ax) ∧
    hGet H (famKey "PV" ax 1) = hGet h0 (famKey "PV" ax 1) ∧
    hGet H (famKey "PS" ax 1) = hGet h0 (famKey "PS" ax 1)) ∧
  (kind = "index" →
    hGet H ("CRPIX" ++ ax) = hGet h0 ("CRPIX" ++ ax) ∧
    hGet H (famKey "PV" ax 1) = hGet h0 (famKey "PV" ax 1) ∧
    hGet H (famKey "PS" ax 1) = hGet h0 (famKey "PS" ax 1) ∧
    hGet H (famKey "N" ax 1) = hGet h0 (famKey "N" ax 1))

/-- Running `axisWrite` on one valid parameter axis succeeds and
establishes that axis's `axKindFacts` relative to the starting header. -/
theorem axisWrite_spec {shape : List Nat} {npars : Nat} {bs : List (List FitsVal)}
    {info : WInfo} {i : Nat}
    (hn : ∀ ns, info.par_names = some ns → i < ns.length)
    (hu : ∀ us, info.par_units = some us → i < us.length)
    (hik : i < info.par_axistype.length)
    (hib : i < bs.length)
    (hbl : (bs.getD i []).length = shape.getD i 0)
    (hkinds : info.par_axistype.getD i "" = "regular" ∧ 2 ≤ shape.getD i 0 ∧
        (∀ k < shape.getD i 0, apOK (bs.getD i []) k = true) ∨
      info.par_axistype.getD i "" = "irregular" ∨
      info.par_axistype.getD i "" = "labeled" ∨
      info.par_axistype.getD i "" = "named" ∨
      info.par_axistype.getD i "" = "index" ∧
        ∀ k < shape.getD i 0, idxOK (bs.getD i []) k = true)
    (h : FitsHeader) :
    ∃ h', axisWrite shape npars bs info h i = .ok h' ∧
      axKindFacts h' h (natStr (npars + 1 - i)) (shape.getD i 0) (bs.getD i [])
        (info.par_axistype.getD i "") := by
  obtain ⟨hA, hsA, hfrA⟩ := setNameW_ok hn (natStr (npars + 1 - i)) h
  obtain ⟨hB, hsB, hfrB⟩ := setUnitW_ok hu (natStr (npars + 1 - i)) hA
  have hfrAB : ∀ K, K ≠ "CNAME" ++ natStr (npars + 1 - i) →
      K ≠ "CUNIT" ++ natStr (npars + 1 - i) → hGet hB K = hGet h K :=
    fun K k1 k2 => (hfrB K k2).trans (hfrA K k1)
  have hkg : pyGet info.par_axistype i = .ok (info.par_axistype.getD i "") := by
    unfold pyGet
    rw [get?_of_lt hik ""]
  have hbg : bs.get? i = some (bs.getD i []) := get?_of_lt hib []
  have hstep : ∀ {hx : FitsHeader},
      axisBody bs (natStr (npars + 1 - i)) (shape.getD i 0) i
        (info.par_axistype.getD i "") hB = .ok hx →
      axisWrite shape npars bs info h i = .ok hx := by
    intro hx hbody
    simp only [axisWrite_eq, hsA, hsB, hkg, ok_bind]
    exact hbody
  rcases hkinds with ⟨hkr, hL2, hap⟩ | hki | hkl | hkn | ⟨hkx, _⟩
  · -- regular
    obtain ⟨x, y, hx0, hx1, _⟩ := apOK_inv (hap 0 (by omega))
    rw [hkr]
    refine ⟨_, hstep (hkr ▸ axisBody_regular_eval hbg hx0 hx1 _ _ hB), ?_⟩
    unfold axKindFacts
    have nPD : ("CRPIX" ++ natStr (npars + 1 - i) : String) ≠
        "CDELT" ++ natStr (npars + 1 - i) := key_ne_of_at 1 rfl rfl (by decide)
    have nPV : ("CRPIX" ++ natStr (npars + 1 - i) : String) ≠
        "CRVAL" ++ natStr (npars + 1 - i) := key_ne_of_at 2 rfl rfl (by decide)
    have nVD : ("CRVAL" ++ natStr (npars + 1 - i) : String) ≠
        "CDELT" ++ natStr (npars + 1 - i) := key_ne_of_at 1 rfl rfl (by decide)
    refine ⟨fun _ => ⟨x, y, hx0, hx1, ?_, ?_, ?_⟩, fun hq => absurd hq (by decide),
      fun hq => absurd hq (by decide), fun hq => absurd hq (by decide),
      fun hq => absurd hq (by decide)⟩
    · rw [hGet_hSet_ne _ nPD _, hGet_hSet_ne _ nPV _, hGet_hSet_self]
    · rw [hGet_hSet_ne _ nVD _, hGet_hSet_self]
    · rw [hGet_hSet_self]
  · -- irregular
    obtain ⟨h', hf, hv, hfr⟩ := axisBody_irregular_eval hbg (natStr_isDigit _)
      (le_of_eq hbl.symm) hB
    rw [hki]
    refine ⟨h', hstep (hki ▸ hf), ?_⟩
    unfold axKindFacts
    have nCN : ("CRPIX" ++ natStr (npars + 1 - i) : String) ≠
        "CNAME" ++ natStr (npars + 1 - i) := key_ne_of_at 1 rfl rfl (by decide)
    have nCU : ("CRPIX" ++ natStr (npars + 1 - i) : String) ≠
        "CUNIT" ++ natStr (npars + 1 - i) := key_ne_of_at 1 rfl rfl (by decide)
    have nCP : ∀ j, j < shape.getD i 0 → ("CRPIX" ++ natStr (npars + 1 - i) : String) ≠
        famKey "PV" (natStr (npars + 1 - i)) (j + 1) :=
      fun j _ => key_ne_of_at 0 rfl rfl (by decide)
    have hcr : hGet h' ("CRPIX" ++ natStr (npars + 1 - i)) =
        hGet h ("CRPIX" ++ natStr (npars + 1 - i)) :=
      (hfr _ nCP).trans (hfrAB _ nCN nCU)
    exact ⟨fun hq => absurd hq (by decide), fun _ => ⟨hv, hcr⟩,
      fun hq => absurd hq (by decide), fun hq => absurd hq (by decide),
      fun hq => absurd hq (by decide)⟩
  · -- labeled
    obtain ⟨h', hf, hv, hfr⟩ := axisBody_labeled_eval hbg (natStr_isDigit _)
      (le_of_eq hbl.symm) hB
    rw [hkl]
    refine ⟨h', hstep (hkl ▸ hf), ?_⟩
    unfold axKindFacts
    have nCN : ("CRPIX" ++ natStr (npars + 1 - i) : String) ≠
        "CNAME" ++ natStr (npars + 1 - i) := key_ne_of_at 1 rfl rfl (by decide)
    have nCU : ("CRPIX" ++ natStr (npars + 1 - i) : String) ≠
        "CUNIT" ++ natStr (npars + 1 - i) := key_ne_of_at 1 rfl rfl (by decide)
    have nCS : ∀ j, j < shape.getD i 0 → ("CRPIX" ++ natStr (npars + 1 - i) : String) ≠
        famKey "PS" (natStr (npars + 1 - i)) (j + 1) :=
      fun j _ => key_ne_of_at 0 rfl rfl (by decide)
    have nVN : (famKey "PV" (natStr (npars + 1 - i)) 1 : String) ≠
        "CNAME" ++ natStr (npars + 1 - i) := key_ne_of_at 0 rfl rfl (by decide)
    have nVU : (famKey "PV" (natStr (npars + 1 - i)) 1 : String) ≠
        "CUNIT" ++ natStr (npars + 1 - i) := key_ne_of_at 0 rfl rfl (by decide)
    have nVS : ∀ j, j < shape.getD i 0 → (famKey "PV" (natStr (npars + 1 - i)) 1 : String) ≠
        famKey "PS" (natStr (npars + 1 - i)) (j + 1) :=
      fun j _ => key_ne_of_at 1 rfl rfl (by decide)
    have hcr : hGet h' ("CRPIX" ++ natStr (npars + 1 - i)) =
        hGet h ("CRPIX" ++ natStr (npars + 1 - i)) :=
      (hfr _ nCS).trans (hfrAB _ nCN nCU)
    have hpv1 : hGet h' (famKey "PV" (natStr (npars + 1 - i)) 1) =
        hGet h (famKey "PV" (natStr (npars + 1 - i)) 1) :=
      (hfr _ nVS).trans (hfrAB _ nVN nVU)
    exact ⟨fun hq => absurd hq (by decide), fun hq => absurd hq (by decide),
      fun _ => ⟨hv, hcr, hpv1⟩, fun hq => absurd hq (by decide),
      fun hq => absurd hq (by decide)⟩
  · -- named
    obtain ⟨h', hf, hv, hfr⟩ := axisBody_named_eval hbg (natStr_isDigit _)
      (le_of_eq hbl.symm) hB
    rw [hkn]
    refine ⟨h', hstep (hkn ▸ hf), ?_⟩
    unfold axKindFacts
    have nCN : ("CRPIX" ++ natStr (npars + 1 - i) : String) ≠
        "CNAME" ++ natStr (npars + 1 - i) := key_ne_of_at 1 rfl rfl (by decide)
    have nCU : ("CRPIX" ++ natStr (npars + 1 - i) : String) ≠
        "CUNIT" ++ natStr (npars + 1 - i) := key_ne_of_at 1 rfl rfl (by decide)
    have nCFam : ∀ j, j < shape.getD i 0 → ("CRPIX" ++ natStr (npars + 1 - i) : String) ≠
        famKey "N" (natStr (npars + 1 - i)) (j + 1) :=
      fun j _ => key_ne_of_at 0 rfl rfl (by decide)
    have nVN : (famKey "PV" (natStr (npars + 1 - i)) 1 : String) ≠
        "CNAME" ++ natStr (npars + 1 - i) := key_ne_of_at 0 rfl rfl (by decide)
    have nVU : (famKey "PV" (natStr (npars + 1 - i)) 1 : String) ≠
        "CUNIT" ++ natStr (npars + 1 - i) := key_ne_of_at 0 rfl rfl (by decide)
    have nVFam : ∀ j, j < shape.getD i 0 →
        (famKey "PV" (natStr (npars + 1 - i)) 1 : String) ≠
        famKey "N" (natStr (npars + 1 - i)) (j + 1) :=
      fun j _ => key_ne_of_at 0 rfl rfl (by decide)
    have nSN : (famKey "PS" (natStr (npars + 1 - i)) 1 : String) ≠
        "CNAME" ++ natStr (npars + 1 - i) := key_ne_of_at 0 rfl rfl (by decide)
    have nSU : (famKey "PS" (natStr (npars + 1 - i)) 1 : String) ≠
        "CUNIT" ++ natStr (npars + 1 - i) := key_ne_of_at 0 rfl rfl (by decide)
    have nSFam : ∀ j, j < shape.getD i 0 →
        (famKey "PS" (natStr (npars + 1 - i)) 1 : String) ≠
        famKey "N" (natStr (npars + 1 - i)) (j + 1) :=
      fun j _ => key_ne_of_at 0 rfl rfl (by decide)
    have hcr : hGet h' ("CRPIX" ++ natStr (npars + 1 - i)) =
        hGet h ("CRPIX" ++ natStr (npars + 1 - i)) :=
      (hfr _ nCFam).trans (hfrAB _ nCN nCU)
    have hpv1 : hGet h' (famKey "PV" (natStr (npars + 1 - i)) 1) =
        hGet h (famKey "PV" (natStr (npars + 1 - i)) 1) :=
      (hfr _ nVFam).trans (hfrAB _ nVN nVU)
    have hps1 : hGet h' (famKey "PS" (natStr (npars + 1 - i)) 1) =
        hGet h (famKey "PS" (natStr (npars + 1 - i)) 1) :=
      (hfr _ nSFam).trans (hfrAB _ nSN nSU)
    exact ⟨fun hq => absurd hq (by decide), fun hq => absurd hq (by decide),
      fun hq => absurd hq (by decide), fun _ => ⟨hv, hcr, hpv1, hps1⟩,
      fun hq => absurd hq (by decide)⟩
  · -- index
    rw [hkx]
    refine ⟨hB, hstep (hkx ▸ axisBody_index bs _ _ i hB), ?_⟩
    unfold axKindFacts
    have nCN : ("CRPIX" ++ natStr (npars + 1 - i) : String) ≠
        "CNAME" ++ natStr (npars + 1 - i) := key_ne_of_at 1 rfl rfl (by decide)
    have nCU : ("CRPIX" ++ natStr (npars + 1 - i) : String) ≠
        "CUNIT" ++ natStr (npars + 1 - i) := key_ne_of_at 1 rfl rfl (by decide)
    have nVN : (famKey "PV" (natStr (npars + 1 - i)) 1 : String) ≠
        "CNAME" ++ natStr (npars + 1 - i) := key_ne_of_at 0 rfl rfl (by decide)
    have nVU : (famKey "PV" (natStr (npars + 1 - i)) 1 : String) ≠
        "CUNIT" ++ natStr (npars + 1 - i) := key_ne_of_at 0 rfl rfl (by decide)
    have nSN : (famKey "PS" (natStr (npars + 1 - i)) 1 : String) ≠
        "CNAME" ++ natStr (npars + 1 - i) := key_ne_of_at 0 rfl rfl (by decide)
    have nSU : (famKey "PS" (natStr (npars + 1 - i)) 1 : String) ≠
        "CUNIT" ++ natStr (npars + 1 - i) := key_ne_of_at 0 rfl rfl (by decide)
    have nNN : (famKey "N" (natStr (npars + 1 - i)) 1 : String) ≠
        "CNAME" ++ natStr (npars + 1 - i) := key_ne_of_at 0 rfl rfl (by decide)
    have nNU : (famKey "N" (natStr (npars + 1 - i)) 1 : String) ≠
        "CUNIT" ++ natStr (npars + 1 - i) := key_ne_of_at 0 rfl rfl (by decide)
    exact ⟨fun hq => absurd hq (by decide), fun hq => absurd hq (by decide),
      fun hq => absurd hq (by decide), fun hq => absurd hq (by decide),
      fun _ => ⟨hfrAB _ nCN nCU, hfrAB _ nVN nVU, hfrAB _ nSN nSU, hfrAB _ nNN nNU⟩⟩

/-- Axis facts survive later loop iterations that leave all of this
axis's keys unchanged. -/
theorem axKindFacts_mono {H Hi h0 : FitsHeader} {ax : String} {L : Nat} {b : List FitsVal}
    {kind : String} (hf : axKindFacts Hi h0 ax L b kind)
    (hkeep : ∀ K ∈ axisAllKeys ax L, hGet H K = hGet Hi K) (hL : 0 < L) :
    axKindFacts H h0 ax L b kind := by
  obtain ⟨f1, f2, f3, f4, f5⟩ := hf
  refine ⟨?_, ?_, ?_, ?_, ?_⟩
  · intro hk
    obtain ⟨x, y, hx0, hx1, hp, hv, hd⟩ := f1 hk
    exact ⟨x, y, hx0, hx1, (hkeep _ (mem_axisAllKeys_crpix ax L)).trans hp,
      (hkeep _ (mem_axisAllKeys_crval ax L)).trans hv,
      (hkeep _ (mem_axisAllKeys_cdelt ax L)).trans hd⟩
  · intro hk
    obtain ⟨hv, hp⟩ := f2 hk
    exact ⟨fun j hj => (hkeep _ (mem_axisAllKeys_pv ax hj)).trans (hv j hj),
      (hkeep _ (mem_axisAllKeys_crpix ax L)).trans hp⟩
  · intro hk
    obtain ⟨hv, hp, hpv⟩ := f3 hk
    exact ⟨fun j hj => (hkeep _ (mem_axisAllKeys_ps ax hj)).trans (hv j hj),
      (hkeep _ (mem_axisAllKeys_crpix ax L)).trans hp,
      (hkeep _ (mem_axisAllKeys_pv1 ax hL)).trans hpv⟩
  · intro hk
    obtain ⟨hv, hp, hpv, hps⟩ := f4 hk
    exact ⟨fun j hj => (hkeep _ (mem_axisAllKeys_n ax hj)).trans (hv j hj),
      (hkeep _ (mem_axisAllKeys_crpix ax L)).trans hp,
      (hkeep _ (mem_axisAllKeys_pv1 ax hL)).trans hpv,
      (hkeep _ (mem_axisAllKeys_ps1 ax hL)).trans hps⟩
  · intro hk
    obtain ⟨hp, hpv, hps, hn⟩ := f5 hk
    exact ⟨(hkeep _ (mem_axisAllKeys_crpix ax L)).trans hp,
      (hkeep _ (mem_axisAllKeys_pv1 ax hL)).trans hpv,
      (hkeep _ (mem_axisAllKeys_ps1 ax hL)).trans hps,
      (hkeep _ (mem_axisAllKeys_n1 ax hL)).trans hn⟩

/-- Axis facts can be re-based past earlier loop iterations that left
all of this axis's keys unchanged. -/
theorem axKindFacts_base {H hi h0 : FitsHeader} {ax : String} {L : Nat} {b : List FitsVal}
    {kind : String} (hf : axKindFacts H hi ax L b kind)
    (hbase : ∀ K ∈ axisAllKeys ax L, hGet hi K = hGet h0 K) (hL : 0 < L) :
    axKindFacts H h0 ax L b kind := by
  obtain ⟨f1, f2, f3, f4, f5⟩ := hf
  refine ⟨f1, ?_, ?_, ?_, ?_⟩
  · intro hk
    obtain ⟨hv, hp⟩ := f2 hk
    exact ⟨hv, hp.trans (hbase _ (mem_axisAllKeys_crpix ax L))⟩
  · intro hk
    obtain ⟨hv, hp, hpv⟩ := f3 hk
    exact ⟨hv, hp.trans (hbase _ (mem_axisAllKeys_crpix ax L)),
      hpv.trans (hbase _ (mem_axisAllKeys_pv1 ax hL))⟩
  · intro hk
    obtain ⟨hv, hp, hpv, hps⟩ := f4 hk
    exact ⟨hv, hp.trans (hbase _ (mem_axisAllKeys_crpix ax L)),
      hpv.trans (hbase _ (mem_axisAllKeys_pv1 ax hL)),
      hps.trans (hbase _ (mem_axisAllKeys_ps1 ax hL))⟩
  · intro hk
    obtain ⟨hp, hpv, hps, hn⟩ := f5 hk
    exact ⟨hp.trans (hbase _ (mem_axisAllKeys_crpix ax L)),
      hpv.trans (hbase _ (mem_axisAllKeys_pv1 ax hL)),
      hps.trans (hbase _ (mem_axisAllKeys_ps1 ax hL)),
      hn.trans (hbase _ (mem_axisAllKeys_n1 ax hL))⟩

/-- Running the axis loop over any duplicate-free list of valid
parameter-axis indices succeeds and establishes every axis's facts
relative to the loop's starting header: distinct axes own disjoint key
sets, so later iterations never disturb earlier ones. -/
theorem axesFold_spec {shape : List Nat} {npars : Nat} {bs : List (List FitsVal)}
    {info : WInfo}
    (hn : ∀ ns, info.par_names = some ns → npars ≤ ns.length)
    (hu : ∀ us, info.par_units = some us → npars ≤ us.length)
    (hkl : info.par_axistype.length = npars)
    (hblen : bs.length = npars)
    (hax : ∀ i < npars,
      0 < shape.getD i 0 ∧
      (bs.getD i []).length = shape.getD i 0 ∧
      (info.par_axistype.getD i "" = "regular" ∧ 2 ≤ shape.getD i 0 ∧
          (∀ k < shape.getD i 0, apOK (bs.getD i []) k = true) ∨
        info.par_axistype.getD i "" = "irregular" ∨
        info.par_axistype.getD i "" = "labeled" ∨
        info.par_axistype.getD i "" = "named" ∨
        info.par_axistype.getD i "" = "index" ∧
          ∀ k < shape.getD i 0, idxOK (bs.getD i []) k = true)) :
    ∀ l : List Nat, l.Nodup → (∀ i ∈ l, i < npars) → ∀ h : FitsHeader,
      ∃ H, l.foldlM (axisWrite shape npars bs info) h = .ok H ∧
        ∀ i ∈ l, axKindFacts H h (natStr (npars + 1 - i)) (shape.getD i 0)
          (bs.getD i []) (info.par_axistype.getD i "") := by
  intro l
  induction l with
  | nil =>
      intro _ _ h
      exact ⟨h, rfl, fun i hi => absurd hi (List.not_mem_nil i)⟩
  | cons i t ih =>
      intro hnd hmem h
      have hi : i < npars := hmem i (by simp)
      obtain ⟨hL, hbli, hkinds⟩ := hax i hi
      obtain ⟨hi', hw_i, hfacts_i⟩ := axisWrite_spec
        (fun ns hns => lt_of_lt_of_le hi (hn ns hns))
        (fun us hus => lt_of_lt_of_le hi (hu us hus))
        (by omega) (by omega) hbli hkinds h
      obtain ⟨H, hf_t, hfacts_t⟩ := ih (List.Nodup.of_cons hnd)
        (fun j hj => hmem j (by simp [hj])) hi'
      have hdiffStr : ∀ j, j < npars → j ≠ i →
          natStr (npars + 1 - j) ≠ natStr (npars + 1 - i) := by
        intro j hj hne e
        have := natStr_inj e
        omega
      refine ⟨H, ?_, ?_⟩
      · show (axisWrite shape npars bs info h i >>= fun h2 =>
          t.foldlM (axisWrite shape npars bs info) h2) = .ok H
        rw [hw_i, ok_bind]
        exact hf_t
      · intro j hj
        rcases List.mem_cons.mp hj with rfl | hjt
        · -- the axis written by this iteration: kept intact by the tail
          have hkeep : ∀ K ∈ axisAllKeys (natStr (npars + 1 - j)) (shape.getD j 0),
              hGet H K = hGet hi' K := by
            intro K hK
            refine axesFold_frame t hi' H hf_t (fun i' hi't => ?_)
            have hi'lt : i' < npars := hmem i' (by simp [hi't])
            have hne : i' ≠ j := fun e => (List.nodup_cons.mp hnd).1 (e ▸ hi't)
            exact axisAllKeys_disjoint (natStr_isDigit _) (natStr_ne_nil _)
              (natStr_isDigit _) (natStr_ne_nil _)
              (fun e => hne (by have := natStr_inj e; omega)) hK
          exact axKindFacts_mono hfacts_i hkeep hL
        · -- an axis written by the tail: this iteration left it alone
          obtain ⟨hLj, _, _⟩ := hax j (hmem j (by simp [hjt]))
          have hjnp : j < npars := hmem j (by simp [hjt])
          have hjne : j ≠ i := fun e => (List.nodup_cons.mp hnd).1 (e ▸ hjt)
          have hbase : ∀ K ∈ axisAllKeys (natStr (npars + 1 - j)) (shape.getD j 0),
              hGet hi' K = hGet h K := by
            intro K hK
            refine axisWrite_preserves hw_i ?_
            exact axisAllKeys_disjoint (natStr_isDigit _) (natStr_ne_nil _)
              (natStr_isDigit _) (natStr_ne_nil _) (hdiffStr j hjnp hjne) hK
          exact axKindFacts_base (hfacts_t j hjt) hbase hLj

theorem bind_pure_eq_map {α β : Type} (f : α → β) (l : List α) :
    (l >>= fun a => pure (f a)) = l.map f := by
  induction l with
  | nil => rfl
  | cons a t ih =>
      show f a :: (t >>= fun x => pure (f x)) = f a :: t.map f
      rw [ih]

/-- Decoding one parameter axis of the finished header: under the axis
facts established by the writer — with every axis key absent from the
pre-loop header — `axisDecode` detects exactly the kind that was
written and reconstructs exactly the baseline that was passed in. -/
theorem axisDecode_roundtrip {H h0 : FitsHeader} {ax : String} {L : Nat}
    {b : List FitsVal} {kind : String}
    (hfacts : axKindFacts H h0 ax L b kind)
    (hnone : ∀ K ∈ axisAllKeys ax L, hGet h0 K = none)
    (hL : 0 < L) (hlen : b.length = L)
    (hkinds : kind = "regular" ∧ 2 ≤ L ∧ (∀ k < L, apOK b k = true) ∨
      kind = "irregular" ∨ kind = "labeled" ∨ kind = "named" ∨
      kind = "index" ∧ ∀ k < L, idxOK b k = true) :
    axisDecode H ax L = .ok ⟨(hGet H ("CNAME" ++ ax)).getD (.str ""),
      (hGet H ("CUNIT" ++ ax)).getD (.str ""), kind, b⟩ := by
  rcases hkinds with ⟨hkr, _, hap⟩ | hki | hkl | hkn | ⟨hkx, hidx⟩
  · -- regular
    subst hkr
    obtain ⟨x, y, hx0, hx1, hp, hv, hd⟩ := hfacts.1 rfl
    rw [axisDecode_regular L hp hv hd]
    have hbase : (List.range L).map
        (fun k => FitsVal.num (((k : ℚ) + 1 - 1) * (y - x) + x)) = b := by
      rw [bind_pure_eq_map, List.map_map]
      apply List.ext_get?
      intro n
      by_cases hn' : n < L
      · simp only [List.get?_map, List.get?_range hn', Option.map_some', Function.comp]
        obtain ⟨x', y', hx0', hx1', hk'⟩ := apOK_inv (hap n hn')
        have hxx : x' = x := FitsVal.num.inj (Option.some.inj (hx0'.symm.trans hx0))
        have hyy : y' = y := FitsVal.num.inj (Option.some.inj (hx1'.symm.trans hx1))
        have harith : ((n : ℚ) + 1 - 1) * (y - x) + x = x + (n : ℚ) * (y - x) := by
          ring
        rw [hk', hxx, hyy, harith]
      · rw [List.get?_map, List.get?_eq_none.mpr (by simpa using (by omega : L ≤ n)),
          List.get?_eq_none.mpr (by omega : b.length ≤ n)]
        rfl
    rw [hbase]
  · -- irregular
    subst hki
    obtain ⟨hv, hp⟩ := hfacts.2.1 rfl
    have hpnone : hGet H ("CRPIX" ++ ax) = none :=
      hp.trans (hnone _ (mem_axisAllKeys_crpix ax L))
    have hreg : (hContains H ("CRPIX" ++ ax) && hContains H ("CRVAL" ++ ax) &&
        hContains H ("CDELT" ++ ax)) = false := by
      simp [hContains, hpnone]
    have hirr : (famKeys "PV" ax L).all (hContains H) = true :=
      famAll_true_of_all (fun j hj => by
        rw [hv j hj, get?_of_lt (show j < b.length by omega) (FitsVal.str "")]
        rfl)
    rw [axisDecode_irregular L hreg hirr]
    have hbase : (famKeys "PV" ax L).map (fun key => (hGet H key).getD (.str "")) = b := by
      unfold famKeys
      rw [List.map_map]
      apply List.ext_get?
      intro n
      by_cases hn' : n < L
      · simp only [List.get?_map, List.get?_range hn', Option.map_some', Function.comp]
        rw [hv n hn', get?_of_lt (show n < b.length by omega) (FitsVal.str "")]
        rfl
      · rw [List.get?_map, List.get?_eq_none.mpr (by simpa using (by omega : L ≤ n)),
          List.get?_eq_none.mpr (by omega : b.length ≤ n)]
        rfl
    rw [hbase]
  · -- labeled
    subst hkl
    obtain ⟨hv, hp, hpv⟩ := hfacts.2.2.1 rfl
    have hpnone : hGet H ("CRPIX" ++ ax) = none :=
      hp.trans (hnone _ (mem_axisAllKeys_crpix ax L))
    have hreg : (hContains H ("CRPIX" ++ ax) && hContains H ("CRVAL" ++ ax) &&
        hContains H ("CDELT" ++ ax)) = false := by
      simp [hContains, hpnone]
    have hirrF : (famKeys "PV" ax L).all (hContains H) = false :=
      famAll_false_of_missing ⟨0, hL,
        by simpa using hpv.trans (hnone _ (mem_axisAllKeys_pv1 ax hL))⟩
    have hlab : (famKeys "PS" ax L).all (hContains H) = true :=
      famAll_true_of_all (fun j hj => by
        rw [hv j hj, get?_of_lt (show j < b.length by omega) (FitsVal.str "")]
        rfl)
    rw [axisDecode_labeled L hreg hirrF hlab]
    have hbase : (famKeys "PS" ax L).map (fun key => (hGet H key).getD (.str "")) = b := by
      unfold famKeys
      rw [List.map_map]
      apply List.ext_get?
      intro n
      by_cases hn' : n < L
      · simp only [List.get?_map, List.get?_range hn', Option.map_some', Function.comp]
        rw [hv n hn', get?_of_lt (show n < b.length by omega) (FitsVal.str "")]
        rfl
      · rw [List.get?_map, List.get?_eq_none.mpr (by simpa using (by omega : L ≤ n)),
          List.get?_eq_none.mpr (by omega : b.length ≤ n)]
        rfl
    rw [hbase]
  · -- named
    subst hkn
    obtain ⟨hv, hp, hpv, hps⟩ := hfacts.2.2.2.1 rfl
    have hpnone : hGet H ("CRPIX" ++ ax) = none :=
      hp.trans (hnone _ (mem_axisAllKeys_crpix ax L))
    have hreg : (hContains H ("CRPIX" ++ ax) && hContains H ("CRVAL" ++ ax) &&
        hContains H ("CDELT" ++ ax)) = false := by
      simp [hContains, hpnone]
    have hirrF : (famKeys "PV" ax L).all (hContains H) = false :=
      famAll_false_of_missing ⟨0, hL,
        by simpa using hpv.trans (hnone _ (mem_axisAllKeys_pv1 ax hL))⟩
    have hlabF : (famKeys "PS" ax L).all (hContains H) = false :=
      famAll_false_of_missing ⟨0, hL,
        by simpa using hps.trans (hnone _ (mem_axisAllKeys_ps1 ax hL))⟩
    have hnam : (famKeys "N" ax L).all (hContains H) = true :=
      famAll_true_of_all (fun j hj => by
        rw [hv j hj, get?_of_lt (show j < b.length by omega) (FitsVal.str "")]
        rfl)
    rw [axisDecode_named L hreg hirrF hlabF hnam]
    have hbase : (famKeys "N" ax L).map (fun key => (hGet H key).getD (.str "")) = b := by
      unfold famKeys
      rw [List.map_map]
      apply List.ext_get?
      intro n
      by_cases hn' : n < L
      · simp only [List.get?_map, List.get?_range hn', Option.map_some', Function.comp]
        rw [hv n hn', get?_of_lt (show n < b.length by omega) (FitsVal.str "")]
        rfl
      · rw [List.get?_map, List.get?_eq_none.mpr (by simpa using (by omega : L ≤ n)),
          List.get?_eq_none.mpr (by omega : b.length ≤ n)]
        rfl
    rw [hbase]
  · -- index
    subst hkx
    obtain ⟨hp, hpv, hps, hn⟩ := hfacts.2.2.2.2 rfl
    have hpnone : hGet H ("CRPIX" ++ ax) = none :=
      hp.trans (hnone _ (mem_axisAllKeys_crpix ax L))
    have hreg : (hContains H ("CRPIX" ++ ax) && hContains H ("CRVAL" ++ ax) &&
        hContains H ("CDELT" ++ ax)) = false := by
      simp [hContains, hpnone]
    have hirrF : (famKeys "PV" ax L).all (hContains H) = false :=
      famAll_false_of_missing ⟨0, hL,
        by simpa using hpv.trans (hnone _ (mem_axisAllKeys_pv1 ax hL))⟩
    have hlabF : (famKeys "PS" ax L).all (hContains H) = false :=
      famAll_false_of_missing ⟨0, hL,
        by simpa using hps.trans (hnone _ (mem_axisAllKeys_ps1 ax hL))⟩
    have hnamF : (famKeys "N" ax L).all (hContains H) = false :=
      famAll_false_of_missing ⟨0, hL,
        by simpa using hn.trans (hnone _ (mem_axisAllKeys_n1 ax hL))⟩
    rw [axisDecode_index L hreg hirrF hlabF hnamF]
    have hbase : (List.range L).map (fun k => FitsVal.num ((k : ℚ) + 1)) = b := by
      rw [bind_pure_eq_map, List.map_map]
      apply List.ext_get?
      intro n
      by_cases hn' : n < L
      · simp only [List.get?_map, List.get?_range hn', Option.map_some', Function.comp]
        exact (idxOK_inv (hidx n hn')).symm
      · rw [List.get?_map, List.get?_eq_none.mpr (by simpa using (by omega : L ≤ n)),
          List.get?_eq_none.mpr (by omega : b.length ≤ n)]
        rfl
    rw [hbase]

set_option maxHeartbeats 2000000 in
/-- Claim C1 as amended: for every valid archive input — axis kinds
drawn from the five supported values, every parameter axis of positive
length with a baseline of exactly the axis length (an arithmetic
progression over at least two samples for `regular`, the canonical
one-based index values for `index`), name/unit/kind/baseline lists
covering all parameter axes, and a filename that parses — decoding the
container produced by encoding (`read_ndArch` after `write_ndArch`)
reproduces the data array verbatim, every baseline element-wise, and
every axis kind exactly. -/
theorem C1_roundtrip_amended (d : NdArray) (bs : List (List FitsVal)) (info : WInfo)
    (hv : ValidInput d bs info) :
    ∃ cont r, write_ndArch d bs info = .ok cont ∧ read_ndArch cont = .ok r ∧
      r.data = d ∧ r.baselines = bs ∧ r.par_axistype = info.par_axistype := by
  obtain ⟨hsh, hfn, hnl, hul, hkl, hblen, haxv⟩ := hv
  have hn : ∀ ns, info.par_names = some ns → d.shape.length - 1 ≤ ns.length := by
    intro ns hns
    rw [hns] at hnl
    simp only [Option.getD_some] at hnl
    omega
  have hu : ∀ us, info.par_units = some us → d.shape.length - 1 ≤ us.length := by
    intro us hus
    rw [hus] at hul
    simp only [Option.getD_some] at hul
    omega
  obtain ⟨Hfin, hfold, hfacts⟩ := axesFold_spec hn hu hkl hblen
    (fun i hi => haxv i hi)
    ((List.range (d.shape.length - 1)).reverse)
    (List.nodup_reverse.mpr (List.nodup_range _))
    (fun i hi => by simpa [List.mem_reverse, List.mem_range] using hi)
    (writeBase d info)
  have hw : write_ndArch d bs info = .ok ⟨info.filename, d, Hfin⟩ := by
    have he : write_ndArch d bs info =
        ((List.range (d.shape.length - 1)).reverse.foldlM
          (axisWrite d.shape (d.shape.length - 1) bs info) (writeBase d info)) >>=
        fun hfin => pure ⟨info.filename, d, hfin⟩ := rfl
    rw [he, hfold]
    rfl
  have hshF : d.shape.isEmpty = false := by
    rcases hs : d.shape with _ | ⟨a, t⟩
    · exact absurd hs hsh
    · rfl
  have h0 : hGet Hfin "CRVAL1" = some (.num info.coeff0) :=
    (writeHeader_foreign hw (Or.inr (by decide))).trans (writeBase_CRVAL1 d info)
  have h1 : hGet Hfin "CDELT1" = some (.num info.coeff1) :=
    (writeHeader_foreign hw (Or.inr (by decide))).trans (writeBase_CDELT1 d info)
  obtain ⟨w, hgl⟩ : ∃ w, d.shape.getLast? = some w := by
    rcases hs : d.shape with _ | ⟨a, t⟩
    · exact absurd hs hsh
    · exact ⟨(a :: t).getLast (by simp), List.getLast?_eq_getLast _ _⟩
  have h2 : hGet Hfin "NAXIS1" = some (.num (w : ℚ)) :=
    (writeHeader_foreign hw (Or.inr (by decide))).trans (writeBase_NAXIS1 info hgl)
  have hpt : ∀ i < d.shape.length - 1,
      axisDecode Hfin (natStr (d.shape.length - 1 + 1 - i)) (d.shape.getD i 0) =
        .ok ⟨(hGet Hfin ("CNAME" ++ natStr (d.shape.length - 1 + 1 - i))).getD (.str ""),
          (hGet Hfin ("CUNIT" ++ natStr (d.shape.length - 1 + 1 - i))).getD (.str ""),
          info.par_axistype.getD i "", bs.getD i []⟩ := by
    intro i hi
    obtain ⟨hL, hbli, hkinds⟩ := haxv i hi
    have hmem : i ∈ (List.range (d.shape.length - 1)).reverse := by
      simp [List.mem_reverse, List.mem_range, hi]
    have hnone : ∀ K ∈ axisAllKeys (natStr (d.shape.length - 1 + 1 - i))
        (d.shape.getD i 0), hGet (writeBase d info) K = none := by
      intro K hK
      have hx : axChars K = (natStr (d.shape.length - 1 + 1 - i)).data :=
        axChars_of_mem (natStr_isDigit _) (natStr_ne_nil _) hK
      exact writeBase_none d info (by rw [hx]; exact natStr_ne_nil _)
        (by rw [hx]; exact natStr_ne_one (by omega))
    exact axisDecode_roundtrip (hfacts i hmem) hnone hL hbli hkinds
  have hmap := mapM_ok_of_pointwise
    (fun i => (⟨(hGet Hfin ("CNAME" ++ natStr (d.shape.length - 1 + 1 - i))).getD (.str ""),
      (hGet Hfin ("CUNIT" ++ natStr (d.shape.length - 1 + 1 - i))).getD (.str ""),
      info.par_axistype.getD i "", bs.getD i []⟩ : AxisRes)) hpt
  have hbs : ((List.range (d.shape.length - 1)).map
      (fun i => (⟨(hGet Hfin ("CNAME" ++ natStr (d.shape.length - 1 + 1 - i))).getD (.str ""),
        (hGet Hfin ("CUNIT" ++ natStr (d.shape.length - 1 + 1 - i))).getD (.str ""),
        info.par_axistype.getD i "", bs.getD i []⟩ : AxisRes))).map
      (fun a => a.baseline) = bs := by
    rw [List.map_map]
    apply List.ext_get?
    intro n
    by_cases hn' : n < d.shape.length - 1
    · simp only [List.get?_map, List.get?_range hn', Option.map_some', Function.comp]
      show some (bs.getD n []) = bs.get? n
      exact (get?_of_lt (by omega) []).symm
    · rw [List.get?_map,
        List.get?_eq_none.mpr (by simpa using (by omega : d.shape.length - 1 ≤ n)),
        List.get?_eq_none.mpr (by omega : bs.length ≤ n)]
      rfl
  have hkd : ((List.range (d.shape.length - 1)).map
      (fun i => (⟨(hGet Hfin ("CNAME" ++ natStr (d.shape.length - 1 + 1 - i))).getD (.str ""),
        (hGet Hfin ("CUNIT" ++ natStr (d.shape.length - 1 + 1 - i))).getD (.str ""),
        info.par_axistype.getD i "", bs.getD i []⟩ : AxisRes))).map
      (fun a => a.kind) = info.par_axistype := by
    rw [List.map_map]
    apply List.ext_get?
    intro n
    by_cases hn' : n < d.shape.length - 1
    · simp only [List.get?_map, List.get?_range hn', Option.map_some', Function.comp]
      show some (info.par_axistype.getD n "") = info.par_axistype.get? n
      exact (get?_of_lt (by omega) "").symm
    · rw [List.get?_map,
        List.get?_eq_none.mpr (by simpa using (by omega : d.shape.length - 1 ≤ n)),
        List.get?_eq_none.mpr (by omega : info.par_axistype.length ≤ n)]
      rfl
  have hread := read_ok_of (⟨info.filename, d, Hfin⟩ : FitsFile) hfn hshF h0 h1 h2 hmap
  refine ⟨⟨info.filename, d, Hfin⟩, _, hw, hread, ?_, ?_, ?_⟩
  · rfl
  · exact hbs
  · exact hkd

instance (d : NdArray) (bs : List (List FitsVal)) (info : WInfo) :
    Decidable (ValidInput d bs info) := by
  unfold ValidInput
  exact inferInstance

/-- Shape `(0, 3)`: one parameter axis of length zero, declared kind
`'index'` with the (vacuously matching) empty baseline. -/
def wC1data : NdArray := ⟨[0, 3], []⟩

def wC1bs : List (List FitsVal) := [[]]

def wC1info : WInfo := ⟨"ndArch-T-v0.fits", 0, 1, none, none, none, ["index"]⟩

/-- Counterexample to claim C1 as stated: a length-zero `'index'` axis
(baseline of exactly the axis length) encodes fine, but decoding calls
the axis `'irregular'` — the empty `PV` keyword family is vacuously
complete because `numpy.prod` of an empty test array is 1 — so the axis
kind is not reproduced. -/
theorem C1_counterexample :
    write_ndArch wC1data wC1bs wC1info =
      .ok (contOf (write_ndArch wC1data wC1bs wC1info)) ∧
    read_ndArch (contOf (write_ndArch wC1data wC1bs wC1info)) =
      .ok (resOf (read_ndArch (contOf (write_ndArch wC1data wC1bs wC1info)))) ∧
    (wC1bs.getD 0 []).length = wC1data.shape.getD 0 0 ∧
    (resOf (read_ndArch (contOf (write_ndArch wC1data wC1bs wC1info)))).par_axistype ≠
      wC1info.par_axistype :=
  ⟨rfl, rfl, by decide, by decide⟩

/-- A five-parameter-axis archive exercising every axis kind once:
regular, irregular, labeled, named, index. -/
def wC1vdata : NdArray := ⟨[2, 2, 2, 2, 1, 3], [1, 2, 3]⟩

def wC1vbs : List (List FitsVal) :=
  [[.num 0, .num 1], [.num 5, .num (7/2)], [.str "a", .str "b"],
   [.str "n1", .str "n2"], [.num 1]]

def wC1vinfo : WInfo :=
  ⟨"ndArch-T-v0.fits", 7/2, 1/10000, some "erg",
    some ["p1", "p2", "p3", "p4", "p5"], some ["u1", "u2", "u3", "u4", "u5"],
    ["regular", "irregular", "labeled", "named", "index"]⟩

theorem C1_roundtrip_amended_witness :
    ValidInput wC1vdata wC1vbs wC1vinfo ∧
    ∃ cont r, write_ndArch wC1vdata wC1vbs wC1vinfo = .ok cont ∧
      read_ndArch cont = .ok r ∧
      r.data = wC1vdata ∧ r.baselines = wC1vbs ∧
      r.par_axistype = wC1vinfo.par_axistype := by
  have hv : ValidInput wC1vdata wC1vbs wC1vinfo := by
    refine ⟨by decide, by decide, by decide, by decide, by decide, by decide, ?_⟩
    intro i hi
    rcases i with _ | _ | _ | _ | _ | i
    · refine ⟨by decide, by decide, Or.inl ⟨by decide, by decide, ?_⟩⟩
      intro k hk
      have hk2 : k < 2 := by simpa [wC1vdata] using hk
      rcases k with _ | _ | k
      · simp [wC1vbs, apOK]
      · simp [wC1vbs, apOK]
      · omega
    · exact ⟨by decide, by decide, Or.inr (Or.inl (by decide))⟩
    · exact ⟨by decide, by decide, Or.inr (Or.inr (Or.inl (by decide)))⟩
    · exact ⟨by decide, by decide, Or.inr (Or.inr (Or.inr (Or.inl (by decide))))⟩
    · refine ⟨by decide, by decide, Or.inr (Or.inr (Or.inr (Or.inr
        ⟨by decide, ?_⟩)))⟩
      intro k hk
      have hk1 : k < 1 := by simpa [wC1vdata] using hk
      rcases k with _ | k
      · simp [wC1vbs, idxOK]
      · omega
    · exfalso
      simp [wC1vdata] at hi
      omega
  exact ⟨hv, C1_roundtrip_amended wC1vdata wC1vbs wC1vinfo hv⟩
